import Mathlib

/-!
Verification development for the perpetuals trading program (AdrenaDEX
clockwork fork).  The definitions below are a shallow embedding of the
Rust sources under `programs/perpetuals/src`:

* `instructions/open_position.rs`  — handler `open_position`
* `instructions/close_position.rs` — handler `close_position`
* `instructions/remove_locked_stake.rs` — handler `remove_locked_stake`
* `state/staking.rs` — stake records, staking options, round eligibility
* `state/perpetuals.rs` — scaling constants (`BPS_POWER`)

Machine integers: Rust `u64` values are embedded as `Nat` together with
explicit modular reduction where the source wraps (`wrapping_add` becomes
`% 2 ^ 64`) and explicit bound checks where the source uses checked
arithmetic (`math::checked_add` and friends fail with an overflow error
instead of wrapping).  Rust `i64` values are embedded as `Int`.
Fallible Rust code returning `Result` is embedded as `Except Err`.

Functions of this repository that the handlers call but whose sources are
not part of the provided tree (`state/custody.rs`, `state/pool.rs`,
`state/oracle.rs`, `state/cortex.rs`, `math.rs`) are either modelled from
the specification (marked `Modelled from the spec:` in their doc comment)
or abstracted as inputs: the numeric results of oracle and pool pricing
computations are passed to the embedded handlers as explicit fields of a
`computed` record, exactly as the handler receives them from the callees.
-/

/-- Modulus of Rust `u64` arithmetic. -/
def U64MOD : Nat := 2 ^ 64

/-- Modulled errors: the variants of `PerpetualsError` (error.rs) and the
builtin program/anchor errors that the embedded handlers can surface.
`RequireKeysNeqViolated` and `RequireKeysEqViolated` are the errors raised
by the anchor macros `require_keys_neq!` and `require_keys_eq!`. -/
inductive Err where
  | InstructionNotAllowed
  | InvalidArgument
  | InvalidCollateralCustody
  | MaxPriceSlippage
  | MaxLeverage
  | InsufficientAmountReturned
  | InsufficientFunds
  | CustodyAmountLimit
  | Overflow
  | CannotFoundStake
  | UnresolvedStake
  | InvalidStakingLockingTime
  | RequireKeysNeqViolated
  | RequireKeysEqViolated
  deriving Repr, DecidableEq

/-- Modelled from the spec (§4.1, §7): `math::checked_add` on `u64` — the
sum if it fits in 64 bits, an Overflow error otherwise (math.rs is not in
the provided tree). -/
def checked_add (a b : Nat) : Except Err Nat :=
  if a + b < U64MOD then .ok (a + b) else .error .Overflow

/-- Modelled from the spec (§4.1, §7): `math::checked_sub` on `u64` — the
difference if it does not underflow, an Overflow error otherwise. -/
def checked_sub (a b : Nat) : Except Err Nat :=
  if b ≤ a then .ok (a - b) else .error .Overflow

/-- Propagation of a fallible call result, the Rust `?` operator: an
error short-circuits, a success feeds the continuation. -/
def bindE {a b : Type} (x : Except Err a) (f : a → Except Err b) : Except Err b :=
  match x with
  | .error e => .error e
  | .ok v => f v

/-- `bindE` on a success. -/
theorem bindE_ok {a b : Type} (v : a) (f : a → Except Err b) :
    bindE (.ok v) f = f v := rfl

/-- `bindE` on an error. -/
theorem bindE_error {a b : Type} (e : Err) (f : a → Except Err b) :
    bindE (.error e) f = .error e := rfl

/-- Rust `u64::wrapping_add`. -/
def wrapping_add (a b : Nat) : Nat := (a + b) % U64MOD

/-- Rust `u64::saturating_sub`; on the `Nat` embedding of `u64` values this
is exactly truncated subtraction. -/
def saturating_sub (a b : Nat) : Nat := a - b

/-- Rust `as` cast of a `u64` value (embedded as a `Nat` below `2 ^ 64`)
to `i64`: value-preserving below `2 ^ 63`, wrapping above. -/
def i64_of_u64 (n : Nat) : Int :=
  if n < 2 ^ 63 then (n : Int) else (n : Int) - (U64MOD : Int)

/-- `Perpetuals::BPS_POWER` (state/perpetuals.rs line 75): `10 ^ 4`. -/
def BPS_POWER : Nat := 10 ^ 4

/-- A staking reward round (struct `StakingRound` lives in
state/cortex.rs, which is not in the provided tree; only its `start_time`
field is read by the embedded functions, per the spec §3 a round is a time
bucket with a start time). -/
structure StakingRound where
  start_time : Int
  deriving Repr, DecidableEq

/-- Struct `LiquidStake` (state/staking.rs lines 42-58). -/
structure LiquidStake where
  amount : Nat
  stake_time : Int
  claim_time : Int
  base_reward_multiplier : Nat
  lm_token_reward_multiplier : Nat
  vote_multiplier : Nat
  amount_with_multiplier : Nat
  deriving Repr, DecidableEq

/-- Struct `LockedStake` (state/staking.rs lines 60-83). -/
structure LockedStake where
  amount : Nat
  stake_time : Int
  claim_time : Int
  lock_duration : Nat
  base_reward_multiplier : Nat
  lm_token_reward_multiplier : Nat
  vote_multiplier : Nat
  amount_with_multiplier : Nat
  resolved : Bool
  deriving Repr, DecidableEq

/-- `LiquidStake::qualifies_for_rewards_from` (state/staking.rs
lines 88-95). -/
def LiquidStake.qualifies_for_rewards_from (s : LiquidStake)
    (staking_round : StakingRound) : Bool :=
  0 < s.stake_time
    && s.stake_time < staking_round.start_time
    && (s.claim_time == 0 || s.claim_time < staking_round.start_time)

/-- `LockedStake::qualifies_for_rewards_from` (state/staking.rs
lines 101-105). -/
def LockedStake.qualifies_for_rewards_from (s : LockedStake)
    (staking_round : StakingRound) : Bool :=
  0 < s.stake_time
    && s.stake_time < staking_round.start_time
    && (s.claim_time == 0 || s.claim_time < staking_round.start_time)

/-- `LockedStake::has_ended` (state/staking.rs lines 107-109):
`(self.stake_time + self.lock_duration as i64) < current_time`. -/
def LockedStake.has_ended (s : LockedStake) (current_time : Int) : Bool :=
  s.stake_time + i64_of_u64 s.lock_duration < current_time

/-- Struct `StakingOption` (state/staking.rs lines 112-118). -/
structure StakingOption where
  locked_days : Nat
  base_reward_multiplier : Nat
  lm_token_reward_multiplier : Nat
  vote_multiplier : Nat
  deriving Repr, DecidableEq

/-- The `STAKING_OPTIONS` table (state/staking.rs lines 121-166).  The
multiplier entries are written in the source as f64 products
`(BPS_POWER as f64 * x) as u32`; the values below are those exact
truncated products (all of them are the round basis-point numbers, e.g.
`10000.0 * 1.25 = 12500.0` truncates to `12500`). -/
def STAKING_OPTIONS : List StakingOption :=
  [ { locked_days := 0, base_reward_multiplier := 10000,
      lm_token_reward_multiplier := 0, vote_multiplier := 10000 },
    { locked_days := 30, base_reward_multiplier := 12500,
      lm_token_reward_multiplier := 10000, vote_multiplier := 12100 },
    { locked_days := 60, base_reward_multiplier := 15600,
      lm_token_reward_multiplier := 12500, vote_multiplier := 13300 },
    { locked_days := 90, base_reward_multiplier := 19500,
      lm_token_reward_multiplier := 15600, vote_multiplier := 14600 },
    { locked_days := 180, base_reward_multiplier := 24400,
      lm_token_reward_multiplier := 19500, vote_multiplier := 16100 },
    { locked_days := 360, base_reward_multiplier := 30500,
      lm_token_reward_multiplier := 24400, vote_multiplier := 17800 },
    { locked_days := 720, base_reward_multiplier := 38100,
      lm_token_reward_multiplier := 30500, vote_multiplier := 19500 } ]

/-- `Staking::get_staking_option` (state/staking.rs lines 174-185): find
the option whose `locked_days` matches, fail with
InvalidStakingLockingTime when none does. -/
def get_staking_option (locked_days : Nat) : Except Err StakingOption :=
  match STAKING_OPTIONS.find? (fun period => period.locked_days == locked_days) with
  | some o => .ok o
  | none => .error .InvalidStakingLockingTime

/-- Modelled from the spec (§4.6, the `stake` operation; the add-stake
instruction sources are not in the provided tree): a stake of `amount`
records `amount_with_multiplier = amount × base_multiplier`, where the
multiplier is a basis-point fixed-point number (scale `BPS_POWER`). -/
def stake_amount_with_multiplier (amount base_reward_multiplier : Nat) : Nat :=
  amount * base_reward_multiplier / BPS_POWER

/-- The `Staking` account state mutated by `remove_locked_stake`
(state/staking.rs lines 33-40). -/
structure Staking where
  liquid_stake : LiquidStake
  locked_stakes : List LockedStake
  deriving Repr, DecidableEq

/-- Handler `remove_locked_stake` (instructions/remove_locked_stake.rs
lines 152-249), restricted to the state it mutates: look up the stake at
`locked_stake_index` (CannotFoundStake if absent), require it to have
ended and to be resolved (UnresolvedStake otherwise), remove it from the
list and return the new state together with the token amount transferred
back to the owner.  The preceding claim-stakes CPI, the token transfer
itself, and the pause of the auto-claim thread are external calls that do
not touch the `Staking` fields embedded here. -/
def remove_locked_stake (staking : Staking) (locked_stake_index : Nat)
    (current_time : Int) : Except Err (Staking × Nat) :=
  match staking.locked_stakes.get? locked_stake_index with
  | none => .error .CannotFoundStake
  | some locked_stake =>
    if locked_stake.has_ended current_time && locked_stake.resolved then
      .ok ({ staking with
              locked_stakes := staking.locked_stakes.eraseIdx locked_stake_index },
           locked_stake.amount)
    else
      .error .UnresolvedStake

/-- Enum `Side` (state/position.rs, not in the provided tree; its three
variants `None`, `Long`, `Short` are fixed by their uses throughout the
handlers and the spec §3). -/
inductive Side where
  | None
  | Long
  | Short
  deriving Repr, DecidableEq

/-- The fields of struct `Custody` (state/custody.rs, account layout per
spec §3) that the embedded handlers read or write.  Account identity
(`key`) and the token mint are embedded as plain naturals.  All balance
and statistics fields are `u64` values. -/
structure Custody where
  key : Nat
  mint : Nat
  is_stable : Bool
  is_virtual : Bool
  allow_open_position : Bool
  allow_close_position : Bool
  protocol_share : Nat
  owned : Nat
  locked : Nat
  collateral : Nat
  protocol_fees : Nat
  collected_fees_open_position_usd : Nat
  collected_fees_close_position_usd : Nat
  distributed_rewards_open_position_lm : Nat
  distributed_rewards_close_position_lm : Nat
  volume_stats_open_position_usd : Nat
  volume_stats_close_position_usd : Nat
  oi_long_usd : Nat
  oi_short_usd : Nat
  trade_stats_profit_usd : Nat
  trade_stats_loss_usd : Nat
  deriving Repr, DecidableEq

/-- Modelled from the spec (§4.2; state/custody.rs is not in the provided
tree): `lock_funds(amount)` moves `amount` into the `locked` state and
fails with InsufficientFunds if that would make `locked > owned`. -/
def Custody.lock_funds (c : Custody) (amount : Nat) : Except Err Custody :=
  match checked_add c.locked amount with
  | .error e => .error e
  | .ok new_locked =>
    if c.owned < new_locked then .error .InsufficientFunds
    else .ok { c with locked := new_locked }

/-- Modelled from the spec (§4.2; state/custody.rs is not in the provided
tree): `unlock_funds(amount)` moves `amount` out of the `locked` state
with checked arithmetic. -/
def Custody.unlock_funds (c : Custody) (amount : Nat) : Except Err Custody :=
  match checked_sub c.locked amount with
  | .error e => .error e
  | .ok new_locked => .ok { c with locked := new_locked }

/-- Modelled from the spec (§4.3; state/pool.rs is not in the provided
tree): `Pool::get_fee_amount(share_bps, fee)` is the basis-point split
rounded down. -/
def get_fee_amount (share_bps fee : Nat) : Except Err Nat :=
  if share_bps * fee / BPS_POWER < U64MOD then .ok (share_bps * fee / BPS_POWER)
  else .error .Overflow

/-- Modelled from the spec (§4.3; state/pool.rs is not in the provided
tree): `Pool::check_available_amount(requested, custody)` verifies
`owned − locked ≥ requested`. -/
def check_available_amount (requested : Nat) (custody : Custody) : Bool :=
  custody.locked + requested ≤ custody.owned

/-- Struct `OpenPositionParams` (instructions/open_position.rs
lines 204-210). -/
structure OpenPositionParams where
  price : Nat
  collateral : Nat
  size : Nat
  side : Side
  deriving Repr, DecidableEq

/-- The fields of struct `Position` (state/position.rs, not in the
provided tree) that `open_position` writes and `close_position` reads;
time fields and the account bump are not read by any embedded function
and are omitted. -/
structure Position where
  custody : Nat
  collateral_custody : Nat
  side : Side
  price : Nat
  size_usd : Nat
  collateral_usd : Nat
  collateral_amount : Nat
  locked_amount : Nat
  cumulative_interest_snapshot : Nat
  deriving Repr, DecidableEq

/-- Results of the oracle and pool computations that `open_position`
invokes on callees whose sources are not in the provided tree
(`OraclePrice::new_from_oracle`, `Pool::get_entry_price`,
`get_asset_amount_usd`, `Custody::get_locked_amount`,
`Pool::get_entry_fee`, `Pool::check_leverage`,
`Custody::get_cumulative_interest`, `Cortex::get_lm_rewards_amount`).
The embedded handler receives these values exactly where the Rust handler
receives the corresponding call results. -/
structure OpenComputed where
  entry_price : Nat
  size_usd : Nat
  collateral_usd : Nat
  locked_amount : Nat
  fee_amount : Nat
  fee_usd : Nat
  lm_rewards_amount : Nat
  leverage_ok : Bool
  cumulative_interest_snapshot : Nat
  deriving Repr, DecidableEq

/-- The permission / input-validation prefix of `open_position`
(instructions/open_position.rs lines 213-239): the pool-wide and custody
permission flags and the non-stable requirement, the zero-argument
checks, and the custody-pairing requirements. -/
def open_checks (perps_allow_open : Bool) (custody collateral_custody : Custody)
    (params : OpenPositionParams) : Except Err Unit :=
  if ¬(perps_allow_open && custody.allow_open_position && !custody.is_stable) then
    .error .InstructionNotAllowed
  else if params.price = 0 || params.collateral = 0 || params.size = 0
      || params.side == Side.None then
    .error .InvalidArgument
  else if params.side == Side.Short || custody.is_virtual then
    if custody.key = collateral_custody.key then .error .RequireKeysNeqViolated
    else if ¬(collateral_custody.is_stable && !collateral_custody.is_virtual) then
      .error .InvalidCollateralCustody
    else .ok ()
  else
    if custody.key = collateral_custody.key then .ok ()
    else .error .RequireKeysEqViolated

/-- The price-slippage gate of `open_position`
(instructions/open_position.rs lines 291-303): Long requires
`params.price ≥ position_price`, otherwise `position_price ≥
params.price`; violation is MaxPriceSlippage. -/
def open_slippage_check (side : Side) (params_price position_price : Nat) :
    Except Err Unit :=
  if side == Side.Long then
    if params_price ≥ position_price then .ok () else .error .MaxPriceSlippage
  else
    if position_price ≥ params_price then .ok () else .error .MaxPriceSlippage

/-- The custody-statistics update block of `open_position`
(instructions/open_position.rs lines 432-493): wrapping adds on the
collected-fees and distributed-rewards counters, checked adds on the
`collateral` and `protocol_fees` balances, then the open-interest /
volume updates, run on the collateral custody (with a final copy-back
into the position custody) when the position is a Long on a non-virtual
custody and on the position custody otherwise.  `add_position` and
`update_borrow_rate` (state/custody.rs, not in the provided tree) touch
only per-side collective-position and borrow-rate fields outside the
embedded field set.  Returns (custody, collateral_custody). -/
def open_update_stats (custody collateral_custody : Custody)
    (params : OpenPositionParams) (position : Position) (c : OpenComputed) :
    Except Err (Custody × Custody) :=
  let collateral_custody := { collateral_custody with
    collected_fees_open_position_usd :=
      wrapping_add collateral_custody.collected_fees_open_position_usd c.fee_usd }
  let custody := { custody with
    distributed_rewards_open_position_lm :=
      wrapping_add custody.distributed_rewards_open_position_lm c.lm_rewards_amount }
  bindE (checked_add collateral_custody.collateral params.collateral) fun new_collateral =>
  let collateral_custody := { collateral_custody with collateral := new_collateral }
  bindE (get_fee_amount custody.protocol_share c.fee_amount) fun protocol_fee =>
  bindE (checked_add collateral_custody.protocol_fees protocol_fee) fun new_protocol_fees =>
  let collateral_custody := { collateral_custody with protocol_fees := new_protocol_fees }
  if position.side == Side.Long && !custody.is_virtual then
    let collateral_custody := { collateral_custody with
      volume_stats_open_position_usd :=
        wrapping_add collateral_custody.volume_stats_open_position_usd c.size_usd }
    bindE (if params.side == Side.Long then
             bindE (checked_add collateral_custody.oi_long_usd c.size_usd) fun v =>
               .ok { collateral_custody with oi_long_usd := v }
           else
             bindE (checked_add collateral_custody.oi_short_usd c.size_usd) fun v =>
               .ok { collateral_custody with oi_short_usd := v })
      fun collateral_custody => .ok (collateral_custody, collateral_custody)
  else
    let custody := { custody with
      volume_stats_open_position_usd :=
        wrapping_add custody.volume_stats_open_position_usd c.size_usd }
    bindE (if params.side == Side.Long then
             bindE (checked_add custody.oi_long_usd c.size_usd) fun v =>
               .ok { custody with oi_long_usd := v }
           else
             bindE (checked_add custody.oi_short_usd c.size_usd) fun v =>
               .ok { custody with oi_short_usd := v })
      fun custody => .ok (custody, collateral_custody)

/-- The position-initialization block of `open_position`
(instructions/open_position.rs lines 331-351): the freshly created
position record.  Time fields and the bump are omitted (not read by any
embedded function). -/
def init_position (custody collateral_custody : Custody)
    (params : OpenPositionParams) (c : OpenComputed) : Position :=
  { custody := custody.key
    collateral_custody := collateral_custody.key
    side := params.side
    price := c.entry_price
    size_usd := c.size_usd
    collateral_usd := c.collateral_usd
    collateral_amount := params.collateral
    locked_amount := c.locked_amount
    cumulative_interest_snapshot := c.cumulative_interest_snapshot }

/-- Result of a successful `open_position`: the created position, the
updated position custody and collateral custody, and the token amount
transferred from the trader's funding account into the collateral
custody. -/
structure OpenResult where
  position : Position
  custody : Custody
  collateral_custody : Custody
  transfer_amount : Nat
  deriving Repr, DecidableEq

/-- Handler `open_position` (instructions/open_position.rs lines 212-645)
restricted to the account state it mutates: permission and input checks,
slippage gate, `transfer_amount = checked_add(collateral, fee)`, position
initialization, the `locked_amount > 0` and leverage gates, `lock_funds`,
and the custody statistics updates.  The token transfers, the LM-reward
mint and the fee-redistribution transfers/swaps are external calls on
ledger collaborators. -/
def open_position (perps_allow_open : Bool) (custody collateral_custody : Custody)
    (params : OpenPositionParams) (c : OpenComputed) : Except Err OpenResult :=
  bindE (open_checks perps_allow_open custody collateral_custody params) fun _ =>
  bindE (open_slippage_check params.side params.price c.entry_price) fun _ =>
  bindE (checked_add params.collateral c.fee_amount) fun transfer_amount =>
  let position : Position := init_position custody collateral_custody params c
  if position.locked_amount = 0 then .error .InsufficientAmountReturned
  else if ¬c.leverage_ok then .error .MaxLeverage
  else
  bindE (collateral_custody.lock_funds position.locked_amount) fun collateral_custody =>
  bindE (open_update_stats custody collateral_custody params position c) fun r =>
    .ok { position := position
          custody := r.1
          collateral_custody := r.2
          transfer_amount := transfer_amount }

/-- Struct `ClosePositionParams` (instructions/close_position.rs
lines 195-198). -/
structure ClosePositionParams where
  price : Nat
  deriving Repr, DecidableEq

/-- Results of the oracle and pool computations that `close_position`
invokes on callees whose sources are not in the provided tree
(`OraclePrice::new_from_oracle`, `Pool::get_exit_price`,
`Pool::get_close_amount`, `get_asset_amount_usd`,
`Cortex::get_lm_rewards_amount`, `Cortex::calculate_fee_distribution`),
plus the mint of the staking-reward-token custody account against which
`custody.mint` is compared. -/
structure CloseComputed where
  exit_price : Nat
  transfer_amount : Nat
  fee_amount : Nat
  profit_usd : Nat
  loss_usd : Nat
  fee_usd : Nat
  lm_rewards_amount : Nat
  lm_stakers_fee : Nat
  locked_lp_stakers_fee : Nat
  staking_reward_token_custody_mint : Nat
  deriving Repr, DecidableEq

/-- The custody-statistics update block of `close_position`
(instructions/close_position.rs lines 356-451): wrapping adds on the
collected-fees and distributed-rewards counters, the checked adjustment
of `owned` by the payout/collateral difference, the checked deduction of
staker fees from `owned` when the custody carries the staking reward
mint, checked updates of `collateral` and `protocol_fees`, and the
volume / open-interest / profit-loss statistics with the final copy-back
into the position custody for a Long on a non-virtual custody.
`remove_position` and `update_borrow_rate` (state/custody.rs, not in the
provided tree) touch only fields outside the embedded set.
Returns (custody, collateral_custody). -/
def close_update_stats (custody collateral_custody : Custody)
    (position : Position) (c : CloseComputed) (protocol_fee : Nat) :
    Except Err (Custody × Custody) :=
  let collateral_custody := { collateral_custody with
    collected_fees_close_position_usd :=
      wrapping_add collateral_custody.collected_fees_close_position_usd c.fee_usd }
  let custody := { custody with
    distributed_rewards_close_position_lm :=
      wrapping_add custody.distributed_rewards_close_position_lm c.lm_rewards_amount }
  bindE (if c.transfer_amount > position.collateral_amount then
           let amount_lost := saturating_sub c.transfer_amount position.collateral_amount
           bindE (checked_sub collateral_custody.owned amount_lost) fun v =>
             .ok { collateral_custody with owned := v }
         else
           let amount_gained := saturating_sub position.collateral_amount c.transfer_amount
           bindE (checked_add collateral_custody.owned amount_gained) fun v =>
             .ok { collateral_custody with owned := v })
    fun collateral_custody =>
  bindE (if custody.mint = c.staking_reward_token_custody_mint then
           bindE (checked_add c.lm_stakers_fee c.locked_lp_stakers_fee) fun fees =>
           bindE (checked_sub custody.owned fees) fun v =>
             .ok { custody with owned := v }
         else .ok custody)
    fun custody =>
  bindE (checked_sub collateral_custody.collateral position.collateral_amount) fun new_collateral =>
  let collateral_custody := { collateral_custody with collateral := new_collateral }
  bindE (checked_add collateral_custody.protocol_fees protocol_fee) fun new_protocol_fees =>
  let collateral_custody := { collateral_custody with protocol_fees := new_protocol_fees }
  if position.side == Side.Long && !custody.is_virtual then
    let collateral_custody := { collateral_custody with
      volume_stats_close_position_usd :=
        wrapping_add collateral_custody.volume_stats_close_position_usd position.size_usd }
    let collateral_custody :=
      if position.side == Side.Long then
        { collateral_custody with
          oi_long_usd := saturating_sub collateral_custody.oi_long_usd position.size_usd }
      else
        { collateral_custody with
          oi_short_usd := saturating_sub collateral_custody.oi_short_usd position.size_usd }
    let collateral_custody := { collateral_custody with
      trade_stats_profit_usd :=
        wrapping_add collateral_custody.trade_stats_profit_usd c.profit_usd
      trade_stats_loss_usd :=
        wrapping_add collateral_custody.trade_stats_loss_usd c.loss_usd }
    .ok (collateral_custody, collateral_custody)
  else
    let custody := { custody with
      volume_stats_close_position_usd :=
        wrapping_add custody.volume_stats_close_position_usd position.size_usd }
    let custody :=
      if position.side == Side.Long then
        { custody with
          oi_long_usd := saturating_sub custody.oi_long_usd position.size_usd }
      else
        { custody with
          oi_short_usd := saturating_sub custody.oi_short_usd position.size_usd }
    let custody := { custody with
      trade_stats_profit_usd := wrapping_add custody.trade_stats_profit_usd c.profit_usd
      trade_stats_loss_usd := wrapping_add custody.trade_stats_loss_usd c.loss_usd }
    .ok (custody, collateral_custody)

/-- The price-slippage gate of `close_position`
(instructions/close_position.rs lines 257-261): Long requires
`exit_price ≥ params.price`, otherwise `params.price ≥ exit_price`;
violation is MaxPriceSlippage. -/
def close_slippage_check (side : Side) (params_price exit_price : Nat) :
    Except Err Unit :=
  if side == Side.Long then
    if exit_price ≥ params_price then .ok () else .error .MaxPriceSlippage
  else
    if params_price ≥ exit_price then .ok () else .error .MaxPriceSlippage

/-- Result of a successful `close_position`: the updated custodies and
the token amount transferred out to the position owner. -/
structure CloseResult where
  custody : Custody
  collateral_custody : Custody
  transfer_amount : Nat
  deriving Repr, DecidableEq

/-- Handler `close_position` (instructions/close_position.rs
lines 200-594) restricted to the account state it mutates: permission and
input checks, the exit-price slippage gate, the settlement outcome of
`get_close_amount`, the protocol-fee split, `unlock_funds`,
`check_available_amount`, the checked computation of the distributable
fee (`checked_sub(fee_amount, protocol_fee)` fed to
`calculate_fee_distribution`), and the custody statistics updates.  The
token transfer to the owner, the LM-reward mint and the
fee-redistribution transfers/swaps are external calls on ledger
collaborators. -/
def close_position (perps_allow_close : Bool) (custody collateral_custody : Custody)
    (position : Position) (params : ClosePositionParams) (c : CloseComputed) :
    Except Err CloseResult :=
  if ¬(perps_allow_close && custody.allow_close_position) then
    .error .InstructionNotAllowed
  else if params.price = 0 then .error .InvalidArgument
  else
  bindE (close_slippage_check position.side params.price c.exit_price) fun _ =>
  bindE (get_fee_amount custody.protocol_share c.fee_amount) fun protocol_fee =>
  bindE (collateral_custody.unlock_funds position.locked_amount) fun collateral_custody =>
  if ¬check_available_amount c.transfer_amount collateral_custody then
    .error .CustodyAmountLimit
  else
  bindE (checked_sub c.fee_amount protocol_fee) fun _distributable_fee =>
  bindE (close_update_stats custody collateral_custody position c protocol_fee) fun r =>
    .ok { custody := r.1
          collateral_custody := r.2
          transfer_amount := c.transfer_amount }

/-- The statistics update block of `open_position` with the inner
`params.side == Side::Long` conditional of the Long branch
(instructions/open_position.rs lines 461-467) replaced by its Long arm;
all other code is identical to `open_update_stats`.  Used to state that
the inner conditional's Short arm is unreachable. -/
def open_update_stats_long_arm (custody collateral_custody : Custody)
    (params : OpenPositionParams) (position : Position) (c : OpenComputed) :
    Except Err (Custody × Custody) :=
  let collateral_custody := { collateral_custody with
    collected_fees_open_position_usd :=
      wrapping_add collateral_custody.collected_fees_open_position_usd c.fee_usd }
  let custody := { custody with
    distributed_rewards_open_position_lm :=
      wrapping_add custody.distributed_rewards_open_position_lm c.lm_rewards_amount }
  bindE (checked_add collateral_custody.collateral params.collateral) fun new_collateral =>
  let collateral_custody := { collateral_custody with collateral := new_collateral }
  bindE (get_fee_amount custody.protocol_share c.fee_amount) fun protocol_fee =>
  bindE (checked_add collateral_custody.protocol_fees protocol_fee) fun new_protocol_fees =>
  let collateral_custody := { collateral_custody with protocol_fees := new_protocol_fees }
  if position.side == Side.Long && !custody.is_virtual then
    let collateral_custody := { collateral_custody with
      volume_stats_open_position_usd :=
        wrapping_add collateral_custody.volume_stats_open_position_usd c.size_usd }
    bindE (bindE (checked_add collateral_custody.oi_long_usd c.size_usd) fun v =>
             .ok { collateral_custody with oi_long_usd := v })
      fun collateral_custody => .ok (collateral_custody, collateral_custody)
  else
    let custody := { custody with
      volume_stats_open_position_usd :=
        wrapping_add custody.volume_stats_open_position_usd c.size_usd }
    bindE (if params.side == Side.Long then
             bindE (checked_add custody.oi_long_usd c.size_usd) fun v =>
               .ok { custody with oi_long_usd := v }
           else
             bindE (checked_add custody.oi_short_usd c.size_usd) fun v =>
               .ok { custody with oi_short_usd := v })
      fun custody => .ok (custody, collateral_custody)

/-- `open_position` with `open_update_stats` replaced by
`open_update_stats_long_arm`; everything else is identical. -/
def open_position_long_arm (perps_allow_open : Bool)
    (custody collateral_custody : Custody)
    (params : OpenPositionParams) (c : OpenComputed) : Except Err OpenResult :=
  bindE (open_checks perps_allow_open custody collateral_custody params) fun _ =>
  bindE (open_slippage_check params.side params.price c.entry_price) fun _ =>
  bindE (checked_add params.collateral c.fee_amount) fun transfer_amount =>
  let position : Position := init_position custody collateral_custody params c
  if position.locked_amount = 0 then .error .InsufficientAmountReturned
  else if ¬c.leverage_ok then .error .MaxLeverage
  else
  bindE (collateral_custody.lock_funds position.locked_amount) fun collateral_custody =>
  bindE (open_update_stats_long_arm custody collateral_custody params position c) fun r =>
    .ok { position := position
          custody := r.1
          collateral_custody := r.2
          transfer_amount := transfer_amount }

/-- The statistics update block of `close_position` with the inner
`position.side == Side::Long` conditional of the Long branch
(instructions/close_position.rs lines 404-414) replaced by its Long arm;
all other code is identical to `close_update_stats`. -/
def close_update_stats_long_arm (custody collateral_custody : Custody)
    (position : Position) (c : CloseComputed) (protocol_fee : Nat) :
    Except Err (Custody × Custody) :=
  let collateral_custody := { collateral_custody with
    collected_fees_close_position_usd :=
      wrapping_add collateral_custody.collected_fees_close_position_usd c.fee_usd }
  let custody := { custody with
    distributed_rewards_close_position_lm :=
      wrapping_add custody.distributed_rewards_close_position_lm c.lm_rewards_amount }
  bindE (if c.transfer_amount > position.collateral_amount then
           let amount_lost := saturating_sub c.transfer_amount position.collateral_amount
           bindE (checked_sub collateral_custody.owned amount_lost) fun v =>
             .ok { collateral_custody with owned := v }
         else
           let amount_gained := saturating_sub position.collateral_amount c.transfer_amount
           bindE (checked_add collateral_custody.owned amount_gained) fun v =>
             .ok { collateral_custody with owned := v })
    fun collateral_custody =>
  bindE (if custody.mint = c.staking_reward_token_custody_mint then
           bindE (checked_add c.lm_stakers_fee c.locked_lp_stakers_fee) fun fees =>
           bindE (checked_sub custody.owned fees) fun v =>
             .ok { custody with owned := v }
         else .ok custody)
    fun custody =>
  bindE (checked_sub collateral_custody.collateral position.collateral_amount) fun new_collateral =>
  let collateral_custody := { collateral_custody with collateral := new_collateral }
  bindE (checked_add collateral_custody.protocol_fees protocol_fee) fun new_protocol_fees =>
  let collateral_custody := { collateral_custody with protocol_fees := new_protocol_fees }
  if position.side == Side.Long && !custody.is_virtual then
    let collateral_custody := { collateral_custody with
      volume_stats_close_position_usd :=
        wrapping_add collateral_custody.volume_stats_close_position_usd position.size_usd }
    let collateral_custody :=
      { collateral_custody with
        oi_long_usd := saturating_sub collateral_custody.oi_long_usd position.size_usd }
    let collateral_custody := { collateral_custody with
      trade_stats_profit_usd :=
        wrapping_add collateral_custody.trade_stats_profit_usd c.profit_usd
      trade_stats_loss_usd :=
        wrapping_add collateral_custody.trade_stats_loss_usd c.loss_usd }
    .ok (collateral_custody, collateral_custody)
  else
    let custody := { custody with
      volume_stats_close_position_usd :=
        wrapping_add custody.volume_stats_close_position_usd position.size_usd }
    let custody :=
      if position.side == Side.Long then
        { custody with
          oi_long_usd := saturating_sub custody.oi_long_usd position.size_usd }
      else
        { custody with
          oi_short_usd := saturating_sub custody.oi_short_usd position.size_usd }
    let custody := { custody with
      trade_stats_profit_usd := wrapping_add custody.trade_stats_profit_usd c.profit_usd
      trade_stats_loss_usd := wrapping_add custody.trade_stats_loss_usd c.loss_usd }
    .ok (custody, collateral_custody)

/-- `close_position` with `close_update_stats` replaced by
`close_update_stats_long_arm`; everything else is identical. -/
def close_position_long_arm (perps_allow_close : Bool) (custody collateral_custody : Custody)
    (position : Position) (params : ClosePositionParams) (c : CloseComputed) :
    Except Err CloseResult :=
  if ¬(perps_allow_close && custody.allow_close_position) then
    .error .InstructionNotAllowed
  else if params.price = 0 then .error .InvalidArgument
  else
  bindE (close_slippage_check position.side params.price c.exit_price) fun _ =>
  bindE (get_fee_amount custody.protocol_share c.fee_amount) fun protocol_fee =>
  bindE (collateral_custody.unlock_funds position.locked_amount) fun collateral_custody =>
  if ¬check_available_amount c.transfer_amount collateral_custody then
    .error .CustodyAmountLimit
  else
  bindE (checked_sub c.fee_amount protocol_fee) fun _distributable_fee =>
  bindE (close_update_stats_long_arm custody collateral_custody position c protocol_fee) fun r =>
    .ok { custody := r.1
          collateral_custody := r.2
          transfer_amount := c.transfer_amount }

/-- Claim C2, counterexample: a liquid stake with `stake_time = 0` and
`claim_time = 0` satisfies the claim's eligibility condition for a round
starting at time 1 (`stake_time < start_time` and `claim_time = 0`), yet
`qualifies_for_rewards_from` returns false, because the code additionally
requires `stake_time > 0`. -/
theorem C2_counterexample :
    let s : LiquidStake :=
      { amount := 100, stake_time := 0, claim_time := 0,
        base_reward_multiplier := 10000, lm_token_reward_multiplier := 0,
        vote_multiplier := 10000, amount_with_multiplier := 100 }
    let r : StakingRound := { start_time := 1 }
    s.stake_time < r.start_time ∧ s.claim_time = 0 ∧
      s.qualifies_for_rewards_from r = false := by
  decide

/-- Claim C2 (amended): for every stake record and every staking round,
the stake qualifies for the round's rewards if and only if its stake_time
is positive, its stake_time precedes the round's start_time, and its
claim_time is zero or also precedes the round's start_time
(`qualifies_for_rewards_from`, for both LiquidStake and LockedStake). -/
theorem C2_qualifies_for_rewards_iff (ls : LiquidStake) (ks : LockedStake)
    (r : StakingRound) :
    (ls.qualifies_for_rewards_from r = true ↔
      (0 < ls.stake_time ∧ ls.stake_time < r.start_time ∧
        (ls.claim_time = 0 ∨ ls.claim_time < r.start_time))) ∧
    (ks.qualifies_for_rewards_from r = true ↔
      (0 < ks.stake_time ∧ ks.stake_time < r.start_time ∧
        (ks.claim_time = 0 ∨ ks.claim_time < r.start_time))) := by
  constructor <;>
    simp [LiquidStake.qualifies_for_rewards_from,
      LockedStake.qualifies_for_rewards_from, and_assoc]

/-- Claim C3: `remove_locked_stake(index)` fails with CannotFoundStake
when `index` is out of range of the `locked_stakes` collection; when the
stake at `index` exists (with a representable lock duration) it fails
with UnresolvedStake whenever the stake has not ended (`now` is not
strictly greater than `stake_time + lock_duration`) or its resolved flag
is false, and otherwise succeeds, removes exactly that one element
(length decreases by one) and pays out the stake's `amount`. -/
theorem C3_remove_locked_stake (st : Staking) (i : Nat) (now : Int) :
    (st.locked_stakes.length ≤ i →
      remove_locked_stake st i now = .error .CannotFoundStake) ∧
    (∀ ls, st.locked_stakes.get? i = some ls → ls.lock_duration < 2 ^ 63 →
      ((¬(ls.stake_time + (ls.lock_duration : Int) < now) ∨ ls.resolved = false) →
        remove_locked_stake st i now = .error .UnresolvedStake) ∧
      (ls.stake_time + (ls.lock_duration : Int) < now → ls.resolved = true →
        remove_locked_stake st i now =
          .ok ({ st with locked_stakes := st.locked_stakes.eraseIdx i }, ls.amount) ∧
        (st.locked_stakes.eraseIdx i).length + 1 = st.locked_stakes.length)) := by
  constructor
  · intro h
    have hn : st.locked_stakes[i]? = none := List.getElem?_eq_none_iff.mpr h
    simp [remove_locked_stake, hn]
  · intro ls hget hld
    have hget2 : st.locked_stakes[i]? = some ls := by
      rw [← List.get?_eq_getElem?]; exact hget
    have hcast : i64_of_u64 ls.lock_duration = (ls.lock_duration : Int) := by
      unfold i64_of_u64
      rw [if_pos hld]
    constructor
    · intro hcond
      have hfail : (ls.has_ended now && ls.resolved) = false := by
        rcases hcond with h | h
        · have hne : ls.has_ended now = false := by
            rw [LockedStake.has_ended, hcast]
            exact decide_eq_false h
          simp [hne]
        · simp [h]
      simp [remove_locked_stake, hget2, hfail]
    · intro hend hres
      have hok : (ls.has_ended now && ls.resolved) = true := by
        have hyes : ls.has_ended now = true := by
          rw [LockedStake.has_ended, hcast]
          exact decide_eq_true hend
        simp [hyes, hres]
      have hi : i < st.locked_stakes.length := (List.get?_eq_some.mp hget).choose
      refine ⟨?_, ?_⟩
      · simp [remove_locked_stake, hget2, hok]
      · rw [List.length_eraseIdx_of_lt hi]
        omega

/-- Claim C3, witness: on a one-element stake list (stake opened at time
1 with a 10-second lock, resolved, amount 42), index 5 is out of range;
removal at time 5 is premature and rejected; removal at time 1000
succeeds, empties the list and pays out 42. -/
theorem C3_remove_locked_stake_witness :
    let ls0 : LockedStake :=
      { amount := 42, stake_time := 1, claim_time := 0, lock_duration := 10,
        base_reward_multiplier := 12500, lm_token_reward_multiplier := 10000,
        vote_multiplier := 12100, amount_with_multiplier := 52, resolved := true }
    let st0 : Staking :=
      { liquid_stake :=
          { amount := 0, stake_time := 0, claim_time := 0,
            base_reward_multiplier := 10000, lm_token_reward_multiplier := 0,
            vote_multiplier := 10000, amount_with_multiplier := 0 }
        locked_stakes := [ls0] }
    remove_locked_stake st0 5 1000 = .error .CannotFoundStake ∧
    remove_locked_stake st0 0 5 = .error .UnresolvedStake ∧
    remove_locked_stake st0 0 1000 =
      .ok ({ st0 with locked_stakes := [] }, 42) := by
  intro ls0 st0
  refine ⟨(C3_remove_locked_stake st0 5 1000).1 (by decide), ?_, ?_⟩
  · exact (((C3_remove_locked_stake st0 0 5).2 ls0 rfl (by decide)).1
      (Or.inl (by decide)))
  · exact (((C3_remove_locked_stake st0 0 1000).2 ls0 rfl (by decide)).2
      (by decide) rfl).1

/-- Claim C7: `get_staking_option(lock_days)` succeeds exactly when
`lock_days` is one of 0, 30, 60, 90, 180, 360, 720 and fails with
InvalidStakingLockingTime for every other value; the 30-day option
carries base reward multiplier 12500 bps (1.25 × BPS_POWER), so a stake
of amount A records `amount_with_multiplier = A × 1.25` (exactly 5A/4
whenever 4 divides A, e.g. 1250 for A = 1000). -/
theorem C7_get_staking_option (d : Nat) :
    ((get_staking_option d).isOk = true ↔
      (d = 0 ∨ d = 30 ∨ d = 60 ∨ d = 90 ∨ d = 180 ∨ d = 360 ∨ d = 720)) ∧
    (¬(d = 0 ∨ d = 30 ∨ d = 60 ∨ d = 90 ∨ d = 180 ∨ d = 360 ∨ d = 720) →
      get_staking_option d = .error .InvalidStakingLockingTime) ∧
    get_staking_option 30 =
      .ok { locked_days := 30, base_reward_multiplier := 12500,
            lm_token_reward_multiplier := 10000, vote_multiplier := 12100 } ∧
    (get_staking_option 30).toOption.map (·.base_reward_multiplier) =
      some (125 * BPS_POWER / 100) ∧
    (∀ amount : Nat, 4 ∣ amount →
      4 * stake_amount_with_multiplier amount 12500 = 5 * amount) ∧
    stake_amount_with_multiplier 1000 12500 = 1250 := by
  have hnone : ¬(d = 0 ∨ d = 30 ∨ d = 60 ∨ d = 90 ∨ d = 180 ∨ d = 360 ∨ d = 720) →
      get_staking_option d = .error .InvalidStakingLockingTime := by
    intro h
    have h0 : ((0:Nat) == d) = false := beq_eq_false_iff_ne.mpr (by omega)
    have h30 : ((30:Nat) == d) = false := beq_eq_false_iff_ne.mpr (by omega)
    have h60 : ((60:Nat) == d) = false := beq_eq_false_iff_ne.mpr (by omega)
    have h90 : ((90:Nat) == d) = false := beq_eq_false_iff_ne.mpr (by omega)
    have h180 : ((180:Nat) == d) = false := beq_eq_false_iff_ne.mpr (by omega)
    have h360 : ((360:Nat) == d) = false := beq_eq_false_iff_ne.mpr (by omega)
    have h720 : ((720:Nat) == d) = false := beq_eq_false_iff_ne.mpr (by omega)
    simp [get_staking_option, STAKING_OPTIONS, List.find?,
      h0, h30, h60, h90, h180, h360, h720]
  refine ⟨?_, hnone, rfl, rfl, ?_, rfl⟩
  · constructor
    · intro hok
      by_contra h
      rw [hnone h] at hok
      simp [Except.isOk, Except.toBool] at hok
    · intro h
      rcases h with h | h | h | h | h | h | h <;> subst h <;> decide
  · intro amount hdvd
    obtain ⟨k, rfl⟩ := hdvd
    have : 4 * k * 12500 = 5 * k * BPS_POWER := by
      simp [BPS_POWER]; ring
    simp [stake_amount_with_multiplier, this, Nat.mul_div_cancel]
    have hpos : 0 < BPS_POWER := by decide
    calc 4 * (5 * k * BPS_POWER / BPS_POWER) = 4 * (5 * k) := by
          rw [Nat.mul_div_cancel _ hpos]
      _ = 5 * (4 * k) := by ring

/-- Claim C7, witness: the theorem instantiated at the out-of-table value
31 and at a stake amount of 1000 tokens. -/
theorem C7_get_staking_option_witness :
    get_staking_option 31 = .error .InvalidStakingLockingTime ∧
    4 * stake_amount_with_multiplier 1000 12500 = 5 * 1000 := by
  refine ⟨(C7_get_staking_option 31).2.1 (by decide), ?_⟩
  exact (C7_get_staking_option 31).2.2.2.2.1 1000 (by decide)

/-- The statistics blocks of `close_position` agree with their inner
conditional replaced by its Long arm: the inner `position.side` test sits
inside a branch already conditioned on `position.side == Side::Long`. -/
theorem close_update_stats_eq_long_arm (cu cc : Custody) (pos : Position)
    (c : CloseComputed) (pf : Nat) :
    close_update_stats cu cc pos c pf = close_update_stats_long_arm cu cc pos c pf := by
  cases h : pos.side <;>
    simp [close_update_stats, close_update_stats_long_arm, h]

/-- The statistics blocks of `open_position` agree with the inner
conditional replaced by its Long arm whenever the position's side is the
side requested in the parameters (which `open_position` guarantees by
construction). -/
theorem open_update_stats_eq_long_arm (cu cc : Custody)
    (params : OpenPositionParams) (pos : Position) (c : OpenComputed)
    (hside : pos.side = params.side) :
    open_update_stats cu cc params pos c = open_update_stats_long_arm cu cc params pos c := by
  cases h : params.side <;>
    simp [open_update_stats, open_update_stats_long_arm, hside, h]

/-- Claim C9: in `open_position` and `close_position`, inside the branch
guarded by `position.side == Side::Long && !custody.is_virtual`, the
nested test of `position.side` (respectively `params.side`) always takes
its Long arm — `open_position` sets `position.side = params.side` before
the branch — so the inner else arm updating `oi_short_usd` is unreachable
and replacing the inner conditional by its Long arm yields an equivalent
program on every input. -/
theorem C9_inner_branch_redundant (perps_allow : Bool)
    (custody collateral_custody : Custody) (oparams : OpenPositionParams)
    (oc : OpenComputed) (position : Position) (cparams : ClosePositionParams)
    (cc : CloseComputed) :
    open_position perps_allow custody collateral_custody oparams oc =
      open_position_long_arm perps_allow custody collateral_custody oparams oc ∧
    close_position perps_allow custody collateral_custody position cparams cc =
      close_position_long_arm perps_allow custody collateral_custody position cparams cc := by
  constructor
  · simp only [open_position, open_position_long_arm, init_position,
      open_update_stats_eq_long_arm]
  · simp only [close_position, close_position_long_arm, close_update_stats_eq_long_arm]

/-- An error in the validation prefix propagates: `open_position` returns
exactly the error of `open_checks`. -/
theorem open_position_checks_error (pa : Bool) (cu cc : Custody)
    (p : OpenPositionParams) (oc : OpenComputed) (e : Err)
    (h : open_checks pa cu cc p = .error e) :
    open_position pa cu cc p oc = .error e := by
  unfold open_position
  rw [h, bindE_error]

/-- An error in the slippage gate propagates through `open_position`. -/
theorem open_position_slippage_error (pa : Bool) (cu cc : Custody)
    (p : OpenPositionParams) (oc : OpenComputed) (e : Err)
    (h1 : open_checks pa cu cc p = .ok ())
    (h2 : open_slippage_check p.side p.price oc.entry_price = .error e) :
    open_position pa cu cc p oc = .error e := by
  unfold open_position
  rw [h1, h2, bindE_ok, bindE_error]

/-- When the validation prefix and the slippage gate pass but
`collateral + fee` exceeds the `u64` range, `open_position` aborts with
the checked-arithmetic Overflow error. -/
theorem open_position_overflow_error (pa : Bool) (cu cc : Custody)
    (p : OpenPositionParams) (oc : OpenComputed)
    (h1 : open_checks pa cu cc p = .ok ())
    (h2 : open_slippage_check p.side p.price oc.entry_price = .ok ())
    (h3 : U64MOD ≤ p.collateral + oc.fee_amount) :
    open_position pa cu cc p oc = .error .Overflow := by
  unfold open_position
  rw [h1, h2, bindE_ok, bindE_ok]
  unfold checked_add
  rw [if_neg (by omega), bindE_error]

/-- Characterization of the open-position slippage gate: it passes
exactly when the trader's limit is on the favorable side of the computed
entry price (Long: computed ≤ limit; otherwise: limit ≤ computed). -/
theorem open_slippage_check_ok_iff (s : Side) (pp ep : Nat) :
    open_slippage_check s pp ep = .ok () ↔
      (if s = Side.Long then ep ≤ pp else pp ≤ ep) := by
  cases s <;> simp [open_slippage_check]

/-- Inversion of a successful checked addition. -/
theorem checked_add_ok (a b s : Nat) (h : checked_add a b = .ok s) :
    a + b < U64MOD ∧ s = a + b := by
  unfold checked_add at h
  split at h
  · exact ⟨by assumption, by cases h; rfl⟩
  · cases h

/-- Inversion of a successful checked subtraction. -/
theorem checked_sub_ok (a b d : Nat) (h : checked_sub a b = .ok d) :
    b ≤ a ∧ d = a - b := by
  unfold checked_sub at h
  split at h
  · exact ⟨by assumption, by cases h; rfl⟩
  · cases h

/-- Inversion of a successful `lock_funds`: the locked balance grows by
exactly the requested amount and stays within the owned balance. -/
theorem lock_funds_ok (c : Custody) (amount : Nat) (c2 : Custody)
    (h : c.lock_funds amount = .ok c2) :
    c.locked + amount ≤ c.owned ∧ c2 = { c with locked := c.locked + amount } := by
  unfold Custody.lock_funds at h
  split at h
  · cases h
  rename_i nl hnl
  obtain ⟨-, rfl⟩ := checked_add_ok _ _ _ hnl
  split at h
  · cases h
  · exact ⟨by omega, by cases h; rfl⟩

/-- Inversion of a successful `unlock_funds`: the locked balance shrinks
by exactly the requested amount, which must have been locked. -/
theorem unlock_funds_ok (c : Custody) (amount : Nat) (c2 : Custody)
    (h : c.unlock_funds amount = .ok c2) :
    amount ≤ c.locked ∧ c2 = { c with locked := c.locked - amount } := by
  unfold Custody.unlock_funds at h
  split at h
  · cases h
  rename_i nl hnl
  obtain ⟨hle, rfl⟩ := checked_sub_ok _ _ _ hnl
  exact ⟨hle, by cases h; rfl⟩


/-- Inversion of a successful `open_position`: every gate passed, the
transfer amount is the checked sum of posted collateral and entry fee,
the recorded position is the initialized record (so its
`collateral_amount` is exactly `params.collateral` and its
`locked_amount` the computed one), funds were locked, and the statistics
update succeeded. -/
theorem open_position_ok_inversion (pa : Bool) (cu cc : Custody)
    (p : OpenPositionParams) (oc : OpenComputed) (r : OpenResult)
    (h : open_position pa cu cc p oc = .ok r) :
    open_checks pa cu cc p = .ok () ∧
    open_slippage_check p.side p.price oc.entry_price = .ok () ∧
    p.collateral + oc.fee_amount < U64MOD ∧
    r.transfer_amount = p.collateral + oc.fee_amount ∧
    r.position = init_position cu cc p oc ∧
    oc.locked_amount ≠ 0 ∧
    oc.leverage_ok = true ∧
    ∃ cc2, cc.lock_funds oc.locked_amount = .ok cc2 ∧
      open_update_stats cu cc2 p (init_position cu cc p oc) oc =
        .ok (r.custody, r.collateral_custody) := by
  unfold open_position at h
  rcases h1 : open_checks pa cu cc p with e | u
  · rw [h1] at h
    simp only [bindE_error] at h
    cases h
  cases u
  rw [h1] at h
  simp only [bindE_ok] at h
  rcases h2 : open_slippage_check p.side p.price oc.entry_price with e | u
  · rw [h2] at h
    simp only [bindE_error] at h
    cases h
  cases u
  rw [h2] at h
  simp only [bindE_ok] at h
  rcases h3 : checked_add p.collateral oc.fee_amount with e | t
  · rw [h3] at h
    simp only [bindE_error] at h
    cases h
  rw [h3] at h
  simp only [bindE_ok, init_position] at h
  by_cases hla : oc.locked_amount = 0
  · rw [if_pos hla] at h
    cases h
  rw [if_neg hla] at h
  by_cases hlev : oc.leverage_ok = true
  case neg =>
    rw [if_pos hlev] at h
    cases h
  rw [if_neg (not_not_intro hlev)] at h
  rcases h4 : cc.lock_funds oc.locked_amount with e | cc2
  · rw [h4] at h
    simp only [bindE_error] at h
    cases h
  rw [h4] at h
  simp only [bindE_ok] at h
  rcases h5 : open_update_stats cu cc2 p (init_position cu cc p oc) oc with e | pair
  · simp only [init_position] at h5
    rw [h5] at h
    simp only [bindE_error] at h
    cases h
  simp only [init_position] at h5
  rw [h5] at h
  simp only [bindE_ok] at h
  simp only [Except.ok.injEq] at h
  subst h
  obtain ⟨hb, rfl⟩ := checked_add_ok _ _ _ h3
  refine ⟨rfl, rfl, hb, rfl, by simp [init_position], hla,
    hlev, cc2, rfl, ?_⟩
  simp only [init_position]
  rw [h5]

/-- Characterization of the close-position slippage gate: it passes
exactly when the computed exit price is on the favorable side of the
trader's limit (Long: limit ≤ exit; otherwise: exit ≤ limit). -/
theorem close_slippage_check_ok_iff (s : Side) (pp ep : Nat) :
    close_slippage_check s pp ep = .ok () ↔
      (if s = Side.Long then pp ≤ ep else ep ≤ pp) := by
  cases s <;> simp [close_slippage_check]

/-- When the permission and input checks of `close_position` pass but the
exit price violates the trader's limit (Long: exit below limit;
otherwise: exit above limit), the handler aborts with MaxPriceSlippage. -/
theorem close_position_slippage_error (pa : Bool) (cu cc : Custody)
    (pos : Position) (cp : ClosePositionParams) (ccmp : CloseComputed)
    (hperm : (pa && cu.allow_close_position) = true) (hp : cp.price ≠ 0)
    (hv : (pos.side = Side.Long ∧ ccmp.exit_price < cp.price) ∨
          (pos.side ≠ Side.Long ∧ cp.price < ccmp.exit_price)) :
    close_position pa cu cc pos cp ccmp = .error .MaxPriceSlippage := by
  have hsl : close_slippage_check pos.side cp.price ccmp.exit_price =
      .error .MaxPriceSlippage := by
    rcases hv with ⟨hl, hlt⟩ | ⟨hnl, hlt⟩
    · rw [close_slippage_check, if_pos (by simp [hl]), if_neg (by omega)]
    · rw [close_slippage_check, if_neg (by simp [hnl]), if_neg (by omega)]
  unfold close_position
  rw [if_neg (by simp [hperm]), if_neg hp, hsl, bindE_error]

/-- Inversion of a successful `close_position`: permissions and input
checks passed, the exit price respected the limit, funds were unlocked,
the availability check passed, the protocol fee fits below the total fee,
and the statistics update succeeded; the amount transferred out is the
settlement's `transfer_amount`. -/
theorem close_position_ok_inversion (pa : Bool) (cu cc : Custody)
    (pos : Position) (cp : ClosePositionParams) (ccmp : CloseComputed)
    (r : CloseResult)
    (h : close_position pa cu cc pos cp ccmp = .ok r) :
    (pa && cu.allow_close_position) = true ∧
    cp.price ≠ 0 ∧
    close_slippage_check pos.side cp.price ccmp.exit_price = .ok () ∧
    r.transfer_amount = ccmp.transfer_amount ∧
    ∃ pf cc2, get_fee_amount cu.protocol_share ccmp.fee_amount = .ok pf ∧
      cc.unlock_funds pos.locked_amount = .ok cc2 ∧
      check_available_amount ccmp.transfer_amount cc2 = true ∧
      pf ≤ ccmp.fee_amount ∧
      close_update_stats cu cc2 pos ccmp pf = .ok (r.custody, r.collateral_custody) := by
  unfold close_position at h
  by_cases hperm : (pa && cu.allow_close_position) = true
  case neg =>
    rw [if_pos (by simpa using hperm)] at h
    cases h
  rw [if_neg (by simp [hperm])] at h
  by_cases hp : cp.price = 0
  · rw [if_pos hp] at h
    cases h
  rw [if_neg hp] at h
  rcases hsl : close_slippage_check pos.side cp.price ccmp.exit_price with e | u
  · rw [hsl] at h
    simp only [bindE_error] at h
    cases h
  cases u
  rw [hsl] at h
  simp only [bindE_ok] at h
  rcases hpf : get_fee_amount cu.protocol_share ccmp.fee_amount with e | pf
  · rw [hpf] at h
    simp only [bindE_error] at h
    cases h
  rw [hpf] at h
  simp only [bindE_ok] at h
  rcases hun : cc.unlock_funds pos.locked_amount with e | cc2
  · rw [hun] at h
    simp only [bindE_error] at h
    cases h
  rw [hun] at h
  simp only [bindE_ok] at h
  by_cases hav : check_available_amount ccmp.transfer_amount cc2 = true
  case neg =>
    rw [if_pos (by simpa using hav)] at h
    cases h
  rw [if_neg (by simp [hav])] at h
  rcases hd : checked_sub ccmp.fee_amount pf with e | d
  · rw [hd] at h
    simp only [bindE_error] at h
    cases h
  rw [hd] at h
  simp only [bindE_ok] at h
  rcases hstats : close_update_stats cu cc2 pos ccmp pf with e | pair
  · rw [hstats] at h
    simp only [bindE_error] at h
    cases h
  rw [hstats] at h
  simp only [bindE_ok] at h
  simp only [Except.ok.injEq] at h
  subst h
  exact ⟨hperm, hp, rfl, rfl, pf, cc2, rfl, rfl, hav,
    (checked_sub_ok _ _ _ hd).1, by rw [hstats]⟩

/-- A sample non-stable, non-virtual custody used as concrete input for
witnesses (key 1, mint 1, 10% protocol share, one million owned, 50
locked, 500 collateral posted, some open interest). -/
def sampleCustody : Custody :=
  { key := 1, mint := 1, is_stable := false, is_virtual := false,
    allow_open_position := true, allow_close_position := true,
    protocol_share := 1000, owned := 1000000, locked := 50,
    collateral := 500, protocol_fees := 0,
    collected_fees_open_position_usd := 0,
    collected_fees_close_position_usd := 0,
    distributed_rewards_open_position_lm := 0,
    distributed_rewards_close_position_lm := 0,
    volume_stats_open_position_usd := 0,
    volume_stats_close_position_usd := 0,
    oi_long_usd := 1000, oi_short_usd := 0,
    trade_stats_profit_usd := 0, trade_stats_loss_usd := 0 }

/-- Sample open parameters: a Long of size 50 with 500 collateral and a
limit price of 100. -/
def sampleOpenParams : OpenPositionParams :=
  { price := 100, collateral := 500, size := 50, side := .Long }

/-- Sample computed entry data: entry price 100, 5 fee, 50 locked. -/
def sampleOpenComputed : OpenComputed :=
  { entry_price := 100, size_usd := 1000, collateral_usd := 500,
    locked_amount := 50, fee_amount := 5, fee_usd := 5,
    lm_rewards_amount := 1, leverage_ok := true,
    cumulative_interest_snapshot := 0 }

/-- A sample live Long position on `sampleCustody`. -/
def samplePosition : Position :=
  { custody := 1, collateral_custody := 1, side := .Long, price := 100,
    size_usd := 1000, collateral_usd := 500, collateral_amount := 500,
    locked_amount := 50, cumulative_interest_snapshot := 0 }

/-- Sample close parameters: a limit price of 90. -/
def sampleCloseParams : ClosePositionParams := { price := 90 }

/-- Sample computed exit data: exit price 100, payout 400 of the 500
posted (100 lost), 5 fee; the staking-reward custody carries a different
mint. -/
def sampleCloseComputed : CloseComputed :=
  { exit_price := 100, transfer_amount := 400, fee_amount := 5,
    profit_usd := 0, loss_usd := 100, fee_usd := 5, lm_rewards_amount := 1,
    lm_stakers_fee := 1, locked_lp_stakers_fee := 1,
    staking_reward_token_custody_mint := 999 }

/-- Claim C4: `open_position` proceeds only if the computed entry price
is at least as favorable as the trader's limit — Long requires
`params.price ≥ entry_price`, Short requires `entry_price ≥ params.price`
— and `close_position` enforces the inverse check — Long requires
`exit_price ≥ params.price`, Short requires `params.price ≥ exit_price`;
any violation (after the validation prefix) aborts with
MaxPriceSlippage. -/
theorem C4_price_slippage (pa : Bool) (cu cc : Custody)
    (p : OpenPositionParams) (oc : OpenComputed) (pos : Position)
    (cp : ClosePositionParams) (ccmp : CloseComputed) :
    ((open_position pa cu cc p oc).isOk = true →
      (p.side = Side.Long → oc.entry_price ≤ p.price) ∧
      (p.side = Side.Short → p.price ≤ oc.entry_price)) ∧
    (open_checks pa cu cc p = .ok () →
      ((p.side = Side.Long ∧ p.price < oc.entry_price) ∨
       (p.side = Side.Short ∧ oc.entry_price < p.price)) →
      open_position pa cu cc p oc = .error .MaxPriceSlippage) ∧
    ((close_position pa cu cc pos cp ccmp).isOk = true →
      (pos.side = Side.Long → cp.price ≤ ccmp.exit_price) ∧
      (pos.side = Side.Short → ccmp.exit_price ≤ cp.price)) ∧
    ((pa && cu.allow_close_position) = true → cp.price ≠ 0 →
      ((pos.side = Side.Long ∧ ccmp.exit_price < cp.price) ∨
       (pos.side = Side.Short ∧ cp.price < ccmp.exit_price)) →
      close_position pa cu cc pos cp ccmp = .error .MaxPriceSlippage) := by
  refine ⟨?_, ?_, ?_, ?_⟩
  · intro h
    rcases hres : open_position pa cu cc p oc with e | r
    · rw [hres] at h
      simp [Except.isOk, Except.toBool] at h
    obtain ⟨-, h2, -⟩ := open_position_ok_inversion pa cu cc p oc r hres
    have hiff := (open_slippage_check_ok_iff p.side p.price oc.entry_price).mp h2
    constructor
    · intro hs
      rw [if_pos hs] at hiff
      exact hiff
    · intro hs
      rw [if_neg (by simp [hs])] at hiff
      exact hiff
  · intro hchk hv
    have hsl : open_slippage_check p.side p.price oc.entry_price =
        .error .MaxPriceSlippage := by
      rcases hv with ⟨hs, hlt⟩ | ⟨hs, hlt⟩
      · rw [open_slippage_check, if_pos (by simp [hs]), if_neg (by omega)]
      · rw [open_slippage_check, if_neg (by simp [hs]), if_neg (by omega)]
    exact open_position_slippage_error pa cu cc p oc _ hchk hsl
  · intro h
    rcases hres : close_position pa cu cc pos cp ccmp with e | r
    · rw [hres] at h
      simp [Except.isOk, Except.toBool] at h
    obtain ⟨-, -, hsl, -⟩ := close_position_ok_inversion pa cu cc pos cp ccmp r hres
    have hiff := (close_slippage_check_ok_iff pos.side cp.price ccmp.exit_price).mp hsl
    constructor
    · intro hs
      rw [if_pos hs] at hiff
      exact hiff
    · intro hs
      rw [if_neg (by simp [hs])] at hiff
      exact hiff
  · intro hperm hp hv
    refine close_position_slippage_error pa cu cc pos cp ccmp hperm hp ?_
    rcases hv with ⟨hs, hlt⟩ | ⟨hs, hlt⟩
    · exact Or.inl ⟨hs, hlt⟩
    · exact Or.inr ⟨by simp [hs], hlt⟩

/-- Claim C4, witness: on the sample inputs a successful Long open at
limit 100 implies the computed entry 100 is within the limit; lowering
the limit to 99 aborts with MaxPriceSlippage; a successful Long close at
limit 90 implies the computed exit 100 covers it; raising the limit to
200 aborts with MaxPriceSlippage. -/
theorem C4_price_slippage_witness :
    sampleOpenComputed.entry_price ≤ sampleOpenParams.price ∧
    open_position true sampleCustody sampleCustody
      { sampleOpenParams with price := 99 } sampleOpenComputed =
        .error .MaxPriceSlippage ∧
    sampleCloseParams.price ≤ sampleCloseComputed.exit_price ∧
    close_position true sampleCustody sampleCustody samplePosition
      { price := 200 } sampleCloseComputed = .error .MaxPriceSlippage := by
  refine ⟨?_, ?_, ?_, ?_⟩
  · exact ((C4_price_slippage true sampleCustody sampleCustody sampleOpenParams
      sampleOpenComputed samplePosition sampleCloseParams
      sampleCloseComputed).1 (by decide)).1 rfl
  · exact (C4_price_slippage true sampleCustody sampleCustody
      { sampleOpenParams with price := 99 } sampleOpenComputed samplePosition
      sampleCloseParams sampleCloseComputed).2.1 rfl
      (Or.inl ⟨rfl, by decide⟩)
  · exact ((C4_price_slippage true sampleCustody sampleCustody sampleOpenParams
      sampleOpenComputed samplePosition sampleCloseParams
      sampleCloseComputed).2.2.1 (by decide)).1 rfl
  · exact (C4_price_slippage true sampleCustody sampleCustody sampleOpenParams
      sampleOpenComputed samplePosition { price := 200 }
      sampleCloseComputed).2.2.2 rfl (by decide)
      (Or.inl ⟨rfl, by decide⟩)

/-- Claim C10: a successful `open_position` transfers exactly
`params.collateral + fee_amount` from the trader's funding account into
the collateral custody — the entry fee is charged on top of the posted
collateral — while the created position records
`collateral_amount = params.collateral`; the addition is checked, so if
`collateral + fee` exceeds the `u64` range (with the earlier gates
passing) the operation aborts with Overflow. -/
theorem C10_entry_fee_on_top (pa : Bool) (cu cc : Custody)
    (p : OpenPositionParams) (oc : OpenComputed) :
    (∀ r, open_position pa cu cc p oc = .ok r →
      r.transfer_amount = p.collateral + oc.fee_amount ∧
      p.collateral + oc.fee_amount < U64MOD ∧
      r.position.collateral_amount = p.collateral) ∧
    (open_checks pa cu cc p = .ok () →
     open_slippage_check p.side p.price oc.entry_price = .ok () →
     U64MOD ≤ p.collateral + oc.fee_amount →
     open_position pa cu cc p oc = .error .Overflow) := by
  constructor
  · intro r h
    obtain ⟨-, -, hb, ht, hpos, -⟩ := open_position_ok_inversion pa cu cc p oc r h
    exact ⟨ht, hb, by rw [hpos]; rfl⟩
  · intro h1 h2 h3
    exact open_position_overflow_error pa cu cc p oc h1 h2 h3

/-- Claim C10, witness: on the sample inputs the amount pulled in is
505 = 500 collateral + 5 fee and the position records 500 collateral;
with a posted collateral of 2^64 − 1 the checked addition overflows and
the open aborts with Overflow. -/
theorem C10_entry_fee_on_top_witness :
    (open_position true sampleCustody sampleCustody sampleOpenParams
      sampleOpenComputed).map
        (fun r => (r.transfer_amount, r.position.collateral_amount)) =
      .ok (505, 500) ∧
    open_position true sampleCustody sampleCustody
      { sampleOpenParams with collateral := 2 ^ 64 - 1 } sampleOpenComputed =
      .error .Overflow := by
  constructor
  · rcases hres : open_position true sampleCustody sampleCustody sampleOpenParams
      sampleOpenComputed with e | r
    · have hok : (open_position true sampleCustody sampleCustody sampleOpenParams
          sampleOpenComputed).isOk = true := by decide
      rw [hres] at hok
      simp [Except.isOk, Except.toBool] at hok
    · have h := (C10_entry_fee_on_top true sampleCustody sampleCustody
        sampleOpenParams sampleOpenComputed).1 r hres
      simp only [Except.map, h.1, h.2.2]
      rfl
  · exact (C10_entry_fee_on_top true sampleCustody sampleCustody
      { sampleOpenParams with collateral := 2 ^ 64 - 1 }
      sampleOpenComputed).2 rfl rfl (by decide)

/-- Inversion of a successful close statistics update: the locked balance
is untouched, the collected-fees / profit / loss counters are updated
with wrapping adds, `owned` is adjusted by exactly the checked
payout/collateral difference, `collateral` shrinks by exactly the
position's collateral, and `protocol_fees` grows by the protocol fee; in
the Long-on-non-virtual branch the position custody is overwritten with
the collateral custody. -/
theorem close_update_stats_ok_inversion (cu cc : Custody) (pos : Position)
    (c : CloseComputed) (pf : Nat) (cu2 cc2 : Custody)
    (h : close_update_stats cu cc pos c pf = .ok (cu2, cc2)) :
    cc2.locked = cc.locked ∧
    cc2.collected_fees_close_position_usd =
      wrapping_add cc.collected_fees_close_position_usd c.fee_usd ∧
    (pos.collateral_amount < c.transfer_amount →
      c.transfer_amount - pos.collateral_amount ≤ cc.owned ∧
      cc2.owned = cc.owned - (c.transfer_amount - pos.collateral_amount)) ∧
    (c.transfer_amount ≤ pos.collateral_amount →
      cc.owned + (pos.collateral_amount - c.transfer_amount) < U64MOD ∧
      cc2.owned = cc.owned + (pos.collateral_amount - c.transfer_amount)) ∧
    pos.collateral_amount ≤ cc.collateral ∧
    cc2.collateral = cc.collateral - pos.collateral_amount ∧
    cc2.protocol_fees = cc.protocol_fees + pf ∧
    cc.protocol_fees + pf < U64MOD ∧
    ((pos.side == Side.Long && !cu.is_virtual) = true →
      cu2 = cc2 ∧
      cc2.volume_stats_close_position_usd =
        wrapping_add cc.volume_stats_close_position_usd pos.size_usd ∧
      cc2.trade_stats_profit_usd =
        wrapping_add cc.trade_stats_profit_usd c.profit_usd ∧
      cc2.trade_stats_loss_usd =
        wrapping_add cc.trade_stats_loss_usd c.loss_usd) ∧
    ((pos.side == Side.Long && !cu.is_virtual) = false →
      cu2.volume_stats_close_position_usd =
        wrapping_add cu.volume_stats_close_position_usd pos.size_usd ∧
      cu2.trade_stats_profit_usd =
        wrapping_add cu.trade_stats_profit_usd c.profit_usd ∧
      cu2.trade_stats_loss_usd =
        wrapping_add cu.trade_stats_loss_usd c.loss_usd ∧
      cu2.distributed_rewards_close_position_lm =
        wrapping_add cu.distributed_rewards_close_position_lm c.lm_rewards_amount) := by
  unfold close_update_stats at h
  dsimp only at h
  by_cases hbr : pos.collateral_amount < c.transfer_amount
  · rw [if_pos hbr] at h
    rcases hsub : checked_sub cc.owned
        (saturating_sub c.transfer_amount pos.collateral_amount) with e | v
    · rw [hsub] at h
      simp only [bindE_error] at h
      cases h
    rw [hsub] at h
    simp only [bindE_ok] at h
    obtain ⟨hvle, rfl⟩ := checked_sub_ok _ _ _ hsub
    by_cases hmint : cu.mint = c.staking_reward_token_custody_mint
    · rw [if_pos hmint] at h
      rcases hfees : checked_add c.lm_stakers_fee c.locked_lp_stakers_fee with e | fees
      · rw [hfees] at h
        simp only [bindE_error] at h
        cases h
      rw [hfees] at h
      simp only [bindE_ok] at h
      rcases hosub : checked_sub cu.owned fees with e | w
      · rw [hosub] at h
        simp only [bindE_error] at h
        cases h
      rw [hosub] at h
      simp only [bindE_ok] at h
      rcases hcol : checked_sub cc.collateral pos.collateral_amount with e | ncol
      · rw [hcol] at h
        simp only [bindE_error] at h
        cases h
      rw [hcol] at h
      simp only [bindE_ok] at h
      obtain ⟨hcle, rfl⟩ := checked_sub_ok _ _ _ hcol
      rcases hpfs : checked_add cc.protocol_fees pf with e | npf
      · rw [hpfs] at h
        simp only [bindE_error] at h
        cases h
      rw [hpfs] at h
      simp only [bindE_ok] at h
      obtain ⟨hpb, rfl⟩ := checked_add_ok _ _ _ hpfs
      by_cases hlong : (pos.side == Side.Long && !cu.is_virtual) = true
      · have hsl : (pos.side == Side.Long) = true := by
          rcases hps : (pos.side == Side.Long) with _ | _
          · rw [hps] at hlong
            simp at hlong
          · rfl
        rw [if_pos hlong, if_pos hsl] at h
        simp only [Except.ok.injEq, Prod.mk.injEq] at h
        obtain ⟨rfl, rfl⟩ := h
        refine ⟨rfl, rfl, fun _ => ⟨by simpa [saturating_sub] using hvle, rfl⟩,
          fun hc => absurd hbr (by omega), hcle, rfl, rfl, hpb,
          fun _ => ⟨rfl, rfl, rfl, rfl⟩, fun hc => absurd hlong (by simp [hc])⟩
      · rw [if_neg hlong] at h
        simp only [Except.ok.injEq, Prod.mk.injEq] at h
        obtain ⟨rfl, rfl⟩ := h
        refine ⟨rfl, rfl, fun _ => ⟨by simpa [saturating_sub] using hvle, rfl⟩,
          fun hc => absurd hbr (by omega), hcle, rfl, rfl, hpb,
          fun hc => absurd hc hlong,
          fun _ => ⟨by simp [apply_ite], by simp [apply_ite], by simp [apply_ite],
            by simp [apply_ite]⟩⟩
    · rw [if_neg hmint] at h
      simp only [bindE_ok] at h
      rcases hcol : checked_sub cc.collateral pos.collateral_amount with e | ncol
      · rw [hcol] at h
        simp only [bindE_error] at h
        cases h
      rw [hcol] at h
      simp only [bindE_ok] at h
      obtain ⟨hcle, rfl⟩ := checked_sub_ok _ _ _ hcol
      rcases hpfs : checked_add cc.protocol_fees pf with e | npf
      · rw [hpfs] at h
        simp only [bindE_error] at h
        cases h
      rw [hpfs] at h
      simp only [bindE_ok] at h
      obtain ⟨hpb, rfl⟩ := checked_add_ok _ _ _ hpfs
      by_cases hlong : (pos.side == Side.Long && !cu.is_virtual) = true
      · have hsl : (pos.side == Side.Long) = true := by
          rcases hps : (pos.side == Side.Long) with _ | _
          · rw [hps] at hlong
            simp at hlong
          · rfl
        rw [if_pos hlong, if_pos hsl] at h
        simp only [Except.ok.injEq, Prod.mk.injEq] at h
        obtain ⟨rfl, rfl⟩ := h
        refine ⟨rfl, rfl, fun _ => ⟨by simpa [saturating_sub] using hvle, rfl⟩,
          fun hc => absurd hbr (by omega), hcle, rfl, rfl, hpb,
          fun _ => ⟨rfl, rfl, rfl, rfl⟩, fun hc => absurd hlong (by simp [hc])⟩
      · rw [if_neg hlong] at h
        simp only [Except.ok.injEq, Prod.mk.injEq] at h
        obtain ⟨rfl, rfl⟩ := h
        refine ⟨rfl, rfl, fun _ => ⟨by simpa [saturating_sub] using hvle, rfl⟩,
          fun hc => absurd hbr (by omega), hcle, rfl, rfl, hpb,
          fun hc => absurd hc hlong,
          fun _ => ⟨by simp [apply_ite], by simp [apply_ite], by simp [apply_ite],
            by simp [apply_ite]⟩⟩
  · rw [if_neg hbr] at h
    rcases hadd : checked_add cc.owned
        (saturating_sub pos.collateral_amount c.transfer_amount) with e | v
    · rw [hadd] at h
      simp only [bindE_error] at h
      cases h
    rw [hadd] at h
    simp only [bindE_ok] at h
    obtain ⟨hvb, rfl⟩ := checked_add_ok _ _ _ hadd
    by_cases hmint : cu.mint = c.staking_reward_token_custody_mint
    · rw [if_pos hmint] at h
      rcases hfees : checked_add c.lm_stakers_fee c.locked_lp_stakers_fee with e | fees
      · rw [hfees] at h
        simp only [bindE_error] at h
        cases h
      rw [hfees] at h
      simp only [bindE_ok] at h
      rcases hosub : checked_sub cu.owned fees with e | w
      · rw [hosub] at h
        simp only [bindE_error] at h
        cases h
      rw [hosub] at h
      simp only [bindE_ok] at h
      rcases hcol : checked_sub cc.collateral pos.collateral_amount with e | ncol
      · rw [hcol] at h
        simp only [bindE_error] at h
        cases h
      rw [hcol] at h
      simp only [bindE_ok] at h
      obtain ⟨hcle, rfl⟩ := checked_sub_ok _ _ _ hcol
      rcases hpfs : checked_add cc.protocol_fees pf with e | npf
      · rw [hpfs] at h
        simp only [bindE_error] at h
        cases h
      rw [hpfs] at h
      simp only [bindE_ok] at h
      obtain ⟨hpb, rfl⟩ := checked_add_ok _ _ _ hpfs
      by_cases hlong : (pos.side == Side.Long && !cu.is_virtual) = true
      · have hsl : (pos.side == Side.Long) = true := by
          rcases hps : (pos.side == Side.Long) with _ | _
          · rw [hps] at hlong
            simp at hlong
          · rfl
        rw [if_pos hlong, if_pos hsl] at h
        simp only [Except.ok.injEq, Prod.mk.injEq] at h
        obtain ⟨rfl, rfl⟩ := h
        refine ⟨rfl, rfl, fun hc => absurd hc hbr,
          fun _ => ⟨by simpa [saturating_sub] using hvb, rfl⟩, hcle, rfl, rfl, hpb,
          fun _ => ⟨rfl, rfl, rfl, rfl⟩, fun hc => absurd hlong (by simp [hc])⟩
      · rw [if_neg hlong] at h
        simp only [Except.ok.injEq, Prod.mk.injEq] at h
        obtain ⟨rfl, rfl⟩ := h
        refine ⟨rfl, rfl, fun hc => absurd hc hbr,
          fun _ => ⟨by simpa [saturating_sub] using hvb, rfl⟩, hcle, rfl, rfl, hpb,
          fun hc => absurd hc hlong,
          fun _ => ⟨by simp [apply_ite], by simp [apply_ite], by simp [apply_ite],
            by simp [apply_ite]⟩⟩
    · rw [if_neg hmint] at h
      simp only [bindE_ok] at h
      rcases hcol : checked_sub cc.collateral pos.collateral_amount with e | ncol
      · rw [hcol] at h
        simp only [bindE_error] at h
        cases h
      rw [hcol] at h
      simp only [bindE_ok] at h
      obtain ⟨hcle, rfl⟩ := checked_sub_ok _ _ _ hcol
      rcases hpfs : checked_add cc.protocol_fees pf with e | npf
      · rw [hpfs] at h
        simp only [bindE_error] at h
        cases h
      rw [hpfs] at h
      simp only [bindE_ok] at h
      obtain ⟨hpb, rfl⟩ := checked_add_ok _ _ _ hpfs
      by_cases hlong : (pos.side == Side.Long && !cu.is_virtual) = true
      · have hsl : (pos.side == Side.Long) = true := by
          rcases hps : (pos.side == Side.Long) with _ | _
          · rw [hps] at hlong
            simp at hlong
          · rfl
        rw [if_pos hlong, if_pos hsl] at h
        simp only [Except.ok.injEq, Prod.mk.injEq] at h
        obtain ⟨rfl, rfl⟩ := h
        refine ⟨rfl, rfl, fun hc => absurd hc hbr,
          fun _ => ⟨by simpa [saturating_sub] using hvb, rfl⟩, hcle, rfl, rfl, hpb,
          fun _ => ⟨rfl, rfl, rfl, rfl⟩, fun hc => absurd hlong (by simp [hc])⟩
      · rw [if_neg hlong] at h
        simp only [Except.ok.injEq, Prod.mk.injEq] at h
        obtain ⟨rfl, rfl⟩ := h
        refine ⟨rfl, rfl, fun hc => absurd hc hbr,
          fun _ => ⟨by simpa [saturating_sub] using hvb, rfl⟩, hcle, rfl, rfl, hpb,
          fun hc => absurd hc hlong,
          fun _ => ⟨by simp [apply_ite], by simp [apply_ite], by simp [apply_ite],
            by simp [apply_ite]⟩⟩

/-- When the payout exceeds the original collateral by more than the
custody owns, the checked `owned` subtraction of the close statistics
update aborts with Overflow (rather than wrapping). -/
theorem close_update_stats_owned_overflow (cu cc : Custody) (pos : Position)
    (c : CloseComputed) (pf : Nat)
    (h1 : pos.collateral_amount < c.transfer_amount)
    (h2 : cc.owned < c.transfer_amount - pos.collateral_amount) :
    close_update_stats cu cc pos c pf = .error .Overflow := by
  unfold close_update_stats
  dsimp only
  rw [if_pos h1]
  have hsub : checked_sub cc.owned
      (saturating_sub c.transfer_amount pos.collateral_amount) = .error .Overflow := by
    unfold checked_sub saturating_sub
    rw [if_neg (by omega)]
  rw [hsub, bindE_error, bindE_error]

/-- Inversion of a successful open statistics update: the locked balance
is untouched, the collected-fees, distributed-rewards and volume counters
are updated with wrapping adds, and the `collateral` and `protocol_fees`
balances grow by exactly the checked amounts under the `u64` bounds; in
the Long-on-non-virtual branch the position custody is overwritten with
the collateral custody. -/
theorem open_update_stats_ok_inversion (cu cc : Custody)
    (p : OpenPositionParams) (pos : Position) (oc : OpenComputed)
    (cu2 cc2 : Custody)
    (h : open_update_stats cu cc p pos oc = .ok (cu2, cc2)) :
    cc2.locked = cc.locked ∧
    cc2.collected_fees_open_position_usd =
      wrapping_add cc.collected_fees_open_position_usd oc.fee_usd ∧
    cc.collateral + p.collateral < U64MOD ∧
    cc2.collateral = cc.collateral + p.collateral ∧
    (∃ pfee, get_fee_amount cu.protocol_share oc.fee_amount = .ok pfee ∧
      cc2.protocol_fees = cc.protocol_fees + pfee ∧
      cc.protocol_fees + pfee < U64MOD) ∧
    ((pos.side == Side.Long && !cu.is_virtual) = true →
      cu2 = cc2 ∧
      cc2.volume_stats_open_position_usd =
        wrapping_add cc.volume_stats_open_position_usd oc.size_usd) ∧
    ((pos.side == Side.Long && !cu.is_virtual) = false →
      cu2.volume_stats_open_position_usd =
        wrapping_add cu.volume_stats_open_position_usd oc.size_usd ∧
      cu2.distributed_rewards_open_position_lm =
        wrapping_add cu.distributed_rewards_open_position_lm oc.lm_rewards_amount) := by
  unfold open_update_stats at h
  dsimp only at h
  rcases hcol : checked_add cc.collateral p.collateral with e | ncol
  · rw [hcol] at h
    simp only [bindE_error] at h
    cases h
  rw [hcol] at h
  simp only [bindE_ok] at h
  obtain ⟨hb, rfl⟩ := checked_add_ok _ _ _ hcol
  rcases hpf : get_fee_amount cu.protocol_share oc.fee_amount with e | pfee
  · rw [hpf] at h
    simp only [bindE_error] at h
    cases h
  rw [hpf] at h
  simp only [bindE_ok] at h
  rcases hpfs : checked_add cc.protocol_fees pfee with e | npf
  · rw [hpfs] at h
    simp only [bindE_error] at h
    cases h
  rw [hpfs] at h
  simp only [bindE_ok] at h
  obtain ⟨hpb, rfl⟩ := checked_add_ok _ _ _ hpfs
  by_cases hlong : (pos.side == Side.Long && !cu.is_virtual) = true
  · rw [if_pos hlong] at h
    by_cases hps : (p.side == Side.Long) = true
    · rw [if_pos hps] at h
      rcases hoi : checked_add cc.oi_long_usd oc.size_usd with e | v
      · rw [hoi] at h
        simp only [bindE_error] at h
        cases h
      rw [hoi] at h
      simp only [bindE_ok] at h
      simp only [Except.ok.injEq, Prod.mk.injEq] at h
      obtain ⟨rfl, rfl⟩ := h
      exact ⟨rfl, rfl, hb, rfl, ⟨pfee, rfl, rfl, hpb⟩,
        fun _ => ⟨rfl, rfl⟩, fun hc => absurd hlong (by simp [hc])⟩
    · rw [if_neg hps] at h
      rcases hoi : checked_add cc.oi_short_usd oc.size_usd with e | v
      · rw [hoi] at h
        simp only [bindE_error] at h
        cases h
      rw [hoi] at h
      simp only [bindE_ok] at h
      simp only [Except.ok.injEq, Prod.mk.injEq] at h
      obtain ⟨rfl, rfl⟩ := h
      exact ⟨rfl, rfl, hb, rfl, ⟨pfee, rfl, rfl, hpb⟩,
        fun _ => ⟨rfl, rfl⟩, fun hc => absurd hlong (by simp [hc])⟩
  · rw [if_neg hlong] at h
    by_cases hps : (p.side == Side.Long) = true
    · rw [if_pos hps] at h
      rcases hoi : checked_add cu.oi_long_usd oc.size_usd with e | v
      · rw [hoi] at h
        simp only [bindE_error] at h
        cases h
      rw [hoi] at h
      simp only [bindE_ok] at h
      simp only [Except.ok.injEq, Prod.mk.injEq] at h
      obtain ⟨rfl, rfl⟩ := h
      exact ⟨rfl, rfl, hb, rfl, ⟨pfee, rfl, rfl, hpb⟩,
        fun hc => absurd hc hlong, fun _ => ⟨rfl, rfl⟩⟩
    · rw [if_neg hps] at h
      rcases hoi : checked_add cu.oi_short_usd oc.size_usd with e | v
      · rw [hoi] at h
        simp only [bindE_error] at h
        cases h
      rw [hoi] at h
      simp only [bindE_ok] at h
      simp only [Except.ok.injEq, Prod.mk.injEq] at h
      obtain ⟨rfl, rfl⟩ := h
      exact ⟨rfl, rfl, hb, rfl, ⟨pfee, rfl, rfl, hpb⟩,
        fun hc => absurd hc hlong, fun _ => ⟨rfl, rfl⟩⟩

/-- When the collateral balance would exceed the `u64` range, the checked
`collateral` addition of the open statistics update aborts with Overflow
(rather than wrapping). -/
theorem open_update_stats_collateral_overflow (cu cc : Custody)
    (p : OpenPositionParams) (pos : Position) (oc : OpenComputed)
    (h : U64MOD ≤ cc.collateral + p.collateral) :
    open_update_stats cu cc p pos oc = .error .Overflow := by
  unfold open_update_stats
  dsimp only
  have hadd : checked_add cc.collateral p.collateral = .error .Overflow := by
    unfold checked_add
    rw [if_neg (by omega)]
  rw [hadd, bindE_error]

/-- When the accumulated protocol fees would exceed the `u64` range, the
checked `protocol_fees` addition of the close statistics update aborts
with Overflow (rather than wrapping); stated on a path where the earlier
checked operations pass (payout within collateral and owned range,
custody mint distinct from the staking-reward mint, collateral
covering the position). -/
theorem close_update_stats_protocol_fees_overflow (cu cc : Custody)
    (pos : Position) (c : CloseComputed) (pf : Nat)
    (h1 : c.transfer_amount ≤ pos.collateral_amount)
    (h2 : cc.owned + (pos.collateral_amount - c.transfer_amount) < U64MOD)
    (h3 : cu.mint ≠ c.staking_reward_token_custody_mint)
    (h4 : pos.collateral_amount ≤ cc.collateral)
    (h5 : U64MOD ≤ cc.protocol_fees + pf) :
    close_update_stats cu cc pos c pf = .error .Overflow := by
  unfold close_update_stats
  dsimp only
  rw [if_neg (not_lt.mpr h1)]
  have hadd : checked_add cc.owned
      (saturating_sub pos.collateral_amount c.transfer_amount) =
      .ok (cc.owned + (pos.collateral_amount - c.transfer_amount)) := by
    unfold checked_add saturating_sub
    rw [if_pos h2]
  simp only [hadd, bindE_ok]
  rw [if_neg h3]
  simp only [bindE_ok]
  have hcol : checked_sub cc.collateral pos.collateral_amount =
      .ok (cc.collateral - pos.collateral_amount) := by
    unfold checked_sub
    rw [if_pos h4]
  simp only [hcol, bindE_ok]
  have hpfs : checked_add cc.protocol_fees pf = .error .Overflow := by
    unfold checked_add
    rw [if_neg (by omega)]
  simp only [hpfs, bindE_error]

/-- When the accumulated protocol fees would exceed the `u64` range, the
checked `protocol_fees` addition of the open statistics update aborts
with Overflow (rather than wrapping); stated on a path where the
preceding checked collateral addition and the protocol-fee computation
pass. -/
theorem open_update_stats_protocol_fees_overflow (cu cc : Custody)
    (p : OpenPositionParams) (pos : Position) (oc : OpenComputed) (pfee : Nat)
    (h1 : cc.collateral + p.collateral < U64MOD)
    (h2 : get_fee_amount cu.protocol_share oc.fee_amount = .ok pfee)
    (h3 : U64MOD ≤ cc.protocol_fees + pfee) :
    open_update_stats cu cc p pos oc = .error .Overflow := by
  unfold open_update_stats
  dsimp only
  have hadd : checked_add cc.collateral p.collateral =
      .ok (cc.collateral + p.collateral) := by
    unfold checked_add
    rw [if_pos h1]
  simp only [hadd, bindE_ok]
  simp only [h2, bindE_ok]
  have hpfs : checked_add cc.protocol_fees pfee = .error .Overflow := by
    unfold checked_add
    rw [if_neg (by omega)]
  simp only [hpfs, bindE_error]

/-- Claim C5: on a successful `close_position`, the collateral custody's
`owned` balance is adjusted by exactly the difference between
`transfer_amount` and the position's original `collateral_amount`
(decreased by `transfer_amount - collateral_amount` when the payout
exceeds the collateral, increased by `collateral_amount -
transfer_amount` otherwise), and its `collateral` field is decreased by
exactly the original `collateral_amount`. -/
theorem C5_close_balance_adjustment (pa : Bool) (cu cc : Custody)
    (pos : Position) (cp : ClosePositionParams) (ccmp : CloseComputed)
    (r : CloseResult)
    (h : close_position pa cu cc pos cp ccmp = .ok r) :
    (pos.collateral_amount < ccmp.transfer_amount →
      ccmp.transfer_amount - pos.collateral_amount ≤ cc.owned ∧
      r.collateral_custody.owned =
        cc.owned - (ccmp.transfer_amount - pos.collateral_amount)) ∧
    (ccmp.transfer_amount ≤ pos.collateral_amount →
      r.collateral_custody.owned =
        cc.owned + (pos.collateral_amount - ccmp.transfer_amount)) ∧
    pos.collateral_amount ≤ cc.collateral ∧
    r.collateral_custody.collateral = cc.collateral - pos.collateral_amount := by
  obtain ⟨-, -, -, -, pf, cc2, hpf, hun, -, -, hstats⟩ :=
    close_position_ok_inversion pa cu cc pos cp ccmp r h
  obtain ⟨hle, rfl⟩ := unlock_funds_ok _ _ _ hun
  obtain ⟨-, -, hlost, hgain, hcle, hcol, -, -, -⟩ :=
    close_update_stats_ok_inversion _ _ _ _ _ _ _ hstats
  exact ⟨hlost, fun hc => (hgain hc).2, hcle, hcol⟩

/-- Claim C5, witness: on the sample close (payout 400 of 500 posted
collateral), the pool gains 100 — `owned` rises from 1,000,000 to
1,000,100 — and `collateral` drops from 500 to 0. -/
theorem C5_close_balance_adjustment_witness :
    (close_position true sampleCustody sampleCustody samplePosition
      sampleCloseParams sampleCloseComputed).map
        (fun r => (r.collateral_custody.owned, r.collateral_custody.collateral)) =
      .ok (1000100, 0) := by
  rcases hres : close_position true sampleCustody sampleCustody samplePosition
      sampleCloseParams sampleCloseComputed with e | r
  · have hok : (close_position true sampleCustody sampleCustody samplePosition
        sampleCloseParams sampleCloseComputed).isOk = true := by decide
    rw [hres] at hok
    simp [Except.isOk, Except.toBool] at hok
  · have h := C5_close_balance_adjustment true sampleCustody sampleCustody
      samplePosition sampleCloseParams sampleCloseComputed r hres
    have ho := h.2.1 (by decide)
    simp only [Except.map, ho, h.2.2.2]
    rfl

/-- Claim C8: in the statistics blocks of `open_position` and
`close_position`, the lifetime counters named by the claim —
collected_fees, distributed_rewards, volume_stats, and trade_stats
profit/loss — are updated with wrapping arithmetic: on every successful
update they carry the modular value, with no overflow precondition.  The
solvency-critical balances `owned`, `collateral`, and `protocol_fees`
are updated only with checked arithmetic: success forces the exact
in-range sums/differences, and an out-of-range update aborts the whole
operation with Overflow instead of wrapping — shown for the `owned`
subtraction and `protocol_fees` addition on close and for the
`collateral` and `protocol_fees` additions on open. -/
theorem C8_wrapping_counters_checked_balances (cu cc : Custody)
    (p : OpenPositionParams) (pos : Position) (oc : OpenComputed)
    (ccmp : CloseComputed) (pf : Nat) :
    (∀ cu2 cc2, close_update_stats cu cc pos ccmp pf = .ok (cu2, cc2) →
      cc2.collected_fees_close_position_usd =
        (cc.collected_fees_close_position_usd + ccmp.fee_usd) % 2 ^ 64 ∧
      ((pos.side == Side.Long && !cu.is_virtual) = true →
        cu2 = cc2 ∧
        cc2.volume_stats_close_position_usd =
          (cc.volume_stats_close_position_usd + pos.size_usd) % 2 ^ 64 ∧
        cc2.trade_stats_profit_usd =
          (cc.trade_stats_profit_usd + ccmp.profit_usd) % 2 ^ 64 ∧
        cc2.trade_stats_loss_usd =
          (cc.trade_stats_loss_usd + ccmp.loss_usd) % 2 ^ 64) ∧
      ((pos.side == Side.Long && !cu.is_virtual) = false →
        cu2.volume_stats_close_position_usd =
          (cu.volume_stats_close_position_usd + pos.size_usd) % 2 ^ 64 ∧
        cu2.trade_stats_profit_usd =
          (cu.trade_stats_profit_usd + ccmp.profit_usd) % 2 ^ 64 ∧
        cu2.trade_stats_loss_usd =
          (cu.trade_stats_loss_usd + ccmp.loss_usd) % 2 ^ 64 ∧
        cu2.distributed_rewards_close_position_lm =
          (cu.distributed_rewards_close_position_lm + ccmp.lm_rewards_amount) % 2 ^ 64) ∧
      pos.collateral_amount ≤ cc.collateral ∧
      cc2.collateral = cc.collateral - pos.collateral_amount ∧
      cc2.protocol_fees = cc.protocol_fees + pf ∧
      cc.protocol_fees + pf < 2 ^ 64 ∧
      (pos.collateral_amount < ccmp.transfer_amount →
        ccmp.transfer_amount - pos.collateral_amount ≤ cc.owned ∧
        cc2.owned = cc.owned - (ccmp.transfer_amount - pos.collateral_amount))) ∧
    (pos.collateral_amount < ccmp.transfer_amount →
     cc.owned < ccmp.transfer_amount - pos.collateral_amount →
     close_update_stats cu cc pos ccmp pf = .error .Overflow) ∧
    (ccmp.transfer_amount ≤ pos.collateral_amount →
     cc.owned + (pos.collateral_amount - ccmp.transfer_amount) < 2 ^ 64 →
     cu.mint ≠ ccmp.staking_reward_token_custody_mint →
     pos.collateral_amount ≤ cc.collateral →
     2 ^ 64 ≤ cc.protocol_fees + pf →
     close_update_stats cu cc pos ccmp pf = .error .Overflow) ∧
    (∀ cu2 cc2, open_update_stats cu cc p pos oc = .ok (cu2, cc2) →
      cc2.collected_fees_open_position_usd =
        (cc.collected_fees_open_position_usd + oc.fee_usd) % 2 ^ 64 ∧
      ((pos.side == Side.Long && !cu.is_virtual) = true →
        cu2 = cc2 ∧
        cc2.volume_stats_open_position_usd =
          (cc.volume_stats_open_position_usd + oc.size_usd) % 2 ^ 64) ∧
      ((pos.side == Side.Long && !cu.is_virtual) = false →
        cu2.volume_stats_open_position_usd =
          (cu.volume_stats_open_position_usd + oc.size_usd) % 2 ^ 64 ∧
        cu2.distributed_rewards_open_position_lm =
          (cu.distributed_rewards_open_position_lm + oc.lm_rewards_amount) % 2 ^ 64) ∧
      cc.collateral + p.collateral < 2 ^ 64 ∧
      cc2.collateral = cc.collateral + p.collateral ∧
      (∃ pfee, get_fee_amount cu.protocol_share oc.fee_amount = .ok pfee ∧
        cc2.protocol_fees = cc.protocol_fees + pfee ∧
        cc.protocol_fees + pfee < 2 ^ 64)) ∧
    (2 ^ 64 ≤ cc.collateral + p.collateral →
      open_update_stats cu cc p pos oc = .error .Overflow) ∧
    (∀ pfee, cc.collateral + p.collateral < 2 ^ 64 →
      get_fee_amount cu.protocol_share oc.fee_amount = .ok pfee →
      2 ^ 64 ≤ cc.protocol_fees + pfee →
      open_update_stats cu cc p pos oc = .error .Overflow) := by
  refine ⟨?_, ?_, ?_, ?_, ?_, ?_⟩
  · intro cu2 cc2 hst
    obtain ⟨-, hcf, hlost, -, hcle, hcol, hpe, hpb, hlongT, hlongF⟩ :=
      close_update_stats_ok_inversion cu cc pos ccmp pf cu2 cc2 hst
    exact ⟨hcf, hlongT, hlongF, hcle, hcol, hpe, hpb, hlost⟩
  · intro h1 h2
    exact close_update_stats_owned_overflow cu cc pos ccmp pf h1 h2
  · intro h1 h2 h3 h4 h5
    exact close_update_stats_protocol_fees_overflow cu cc pos ccmp pf h1 h2 h3 h4 h5
  · intro cu2 cc2 hst
    obtain ⟨-, hcf, hb, hcol, hpr, hlongT, hlongF⟩ :=
      open_update_stats_ok_inversion cu cc p pos oc cu2 cc2 hst
    exact ⟨hcf, hlongT, hlongF, hb, hcol, hpr⟩
  · intro h1
    exact open_update_stats_collateral_overflow cu cc p pos oc h1
  · intro pfee h1 h2 h3
    exact open_update_stats_protocol_fees_overflow cu cc p pos oc pfee h1 h2 h3

/-- Claim C8, witness: counters at 2^64 − 1 wrap to 4 on a successful
close and on a successful open (collected fees; the same successful runs
carry the wrapped volume counters), while a payout of 2,000,000 against
500 collateral and 1,000,000 owned aborts the close with Overflow, a
protocol-fees balance at 2^64 − 1 aborts both the close (protocol fee 5)
and the open (protocol fee 100 on a 1000 fee at 10% share) with
Overflow, and a collateral balance at 2^64 − 1 aborts the open with
Overflow. -/
theorem C8_wrapping_counters_checked_balances_witness :
    (close_update_stats sampleCustody
        { sampleCustody with collected_fees_close_position_usd := 2 ^ 64 - 1 }
        samplePosition sampleCloseComputed 0).map
      (fun r => r.2.collected_fees_close_position_usd) = .ok 4 ∧
    close_update_stats sampleCustody sampleCustody samplePosition
      { sampleCloseComputed with transfer_amount := 2000000 } 0 =
        .error .Overflow ∧
    close_update_stats sampleCustody
      { sampleCustody with protocol_fees := 2 ^ 64 - 1 }
      samplePosition sampleCloseComputed 5 = .error .Overflow ∧
    (open_update_stats sampleCustody
        { sampleCustody with collected_fees_open_position_usd := 2 ^ 64 - 1 }
        sampleOpenParams samplePosition sampleOpenComputed).map
      (fun r => r.2.collected_fees_open_position_usd) = .ok 4 ∧
    open_update_stats sampleCustody
      { sampleCustody with collateral := 2 ^ 64 - 1 }
      sampleOpenParams samplePosition sampleOpenComputed = .error .Overflow ∧
    open_update_stats sampleCustody
      { sampleCustody with protocol_fees := 2 ^ 64 - 1 }
      sampleOpenParams samplePosition
      { sampleOpenComputed with fee_amount := 1000 } = .error .Overflow := by
  refine ⟨?_, ?_, ?_, ?_, ?_, ?_⟩
  · rcases hres : close_update_stats sampleCustody
        { sampleCustody with collected_fees_close_position_usd := 2 ^ 64 - 1 }
        samplePosition sampleCloseComputed 0 with e | pr
    · have hok : (close_update_stats sampleCustody
          { sampleCustody with collected_fees_close_position_usd := 2 ^ 64 - 1 }
          samplePosition sampleCloseComputed 0).isOk = true := by decide
      rw [hres] at hok
      simp [Except.isOk, Except.toBool] at hok
    · have h := (C8_wrapping_counters_checked_balances sampleCustody
        { sampleCustody with collected_fees_close_position_usd := 2 ^ 64 - 1 }
        sampleOpenParams samplePosition sampleOpenComputed sampleCloseComputed 0).1
        pr.1 pr.2 (by rw [← hres])
      simp only [Except.map, h.1]
      rfl
  · exact (C8_wrapping_counters_checked_balances sampleCustody sampleCustody
      sampleOpenParams samplePosition sampleOpenComputed
      { sampleCloseComputed with transfer_amount := 2000000 } 0).2.1
      (by decide) (by decide)
  · exact (C8_wrapping_counters_checked_balances sampleCustody
      { sampleCustody with protocol_fees := 2 ^ 64 - 1 }
      sampleOpenParams samplePosition sampleOpenComputed
      sampleCloseComputed 5).2.2.1
      (by decide) (by decide) (by decide) (by decide) (by decide)
  · rcases hres : open_update_stats sampleCustody
        { sampleCustody with collected_fees_open_position_usd := 2 ^ 64 - 1 }
        sampleOpenParams samplePosition sampleOpenComputed with e | pr
    · have hok : (open_update_stats sampleCustody
          { sampleCustody with collected_fees_open_position_usd := 2 ^ 64 - 1 }
          sampleOpenParams samplePosition sampleOpenComputed).isOk = true := by decide
      rw [hres] at hok
      simp [Except.isOk, Except.toBool] at hok
    · have h := (C8_wrapping_counters_checked_balances sampleCustody
        { sampleCustody with collected_fees_open_position_usd := 2 ^ 64 - 1 }
        sampleOpenParams samplePosition sampleOpenComputed sampleCloseComputed 0).2.2.2.1
        pr.1 pr.2 (by rw [← hres])
      simp only [Except.map, h.1]
      rfl
  · exact (C8_wrapping_counters_checked_balances sampleCustody
      { sampleCustody with collateral := 2 ^ 64 - 1 }
      sampleOpenParams samplePosition sampleOpenComputed sampleCloseComputed 0).2.2.2.2.1
      (by decide)
  · exact (C8_wrapping_counters_checked_balances sampleCustody
      { sampleCustody with protocol_fees := 2 ^ 64 - 1 }
      sampleOpenParams samplePosition
      { sampleOpenComputed with fee_amount := 1000 } sampleCloseComputed 0).2.2.2.2.2
      100 (by decide) rfl (by decide)

/-- Claim C6, counterexample: a Short open pairing the position custody
with itself as collateral custody (same account, and that account is not
stable and not virtual) fails — but with the key-constraint error of
`require_keys_neq!`, not with InvalidCollateralCustody as the claim
states, because the distinctness check precedes the stable/non-virtual
check and raises its own error. -/
theorem C6_counterexample :
    open_position true sampleCustody sampleCustody
      { sampleOpenParams with side := .Short } sampleOpenComputed =
      .error .RequireKeysNeqViolated ∧
    Err.RequireKeysNeqViolated ≠ Err.InvalidCollateralCustody := by
  exact ⟨rfl, by simp⟩

/-- Claim C6 (amended): when the open permission checks pass,
`open_position` fails with InvalidArgument whenever price, collateral, or
size is zero or side is None (and `close_position`, with its permission
check passing, fails with InvalidArgument when price is zero); for a
Short position or a virtual custody with nonzero arguments,
`open_position` fails with the key-constraint error RequireKeysNeqViolated
when the collateral custody is the same account as the position custody,
and fails with InvalidCollateralCustody when it is a distinct account
that is not both stable and non-virtual; for a Long position on a
non-virtual custody a distinct collateral custody fails with the
key-constraint error RequireKeysEqViolated. -/
theorem C6_validation_errors (pa : Bool) (cu cc : Custody)
    (p : OpenPositionParams) (oc : OpenComputed) (pos : Position)
    (cp : ClosePositionParams) (ccmp : CloseComputed)
    (hperm : (pa && cu.allow_open_position && !cu.is_stable) = true) :
    ((p.price = 0 ∨ p.collateral = 0 ∨ p.size = 0 ∨ p.side = Side.None) →
      open_position pa cu cc p oc = .error .InvalidArgument) ∧
    (p.price ≠ 0 → p.collateral ≠ 0 → p.size ≠ 0 → p.side ≠ Side.None →
      (p.side = Side.Short ∨ cu.is_virtual = true) →
      (cu.key = cc.key →
        open_position pa cu cc p oc = .error .RequireKeysNeqViolated) ∧
      (cu.key ≠ cc.key → (cc.is_stable && !cc.is_virtual) = false →
        open_position pa cu cc p oc = .error .InvalidCollateralCustody)) ∧
    (p.price ≠ 0 → p.collateral ≠ 0 → p.size ≠ 0 → p.side = Side.Long →
      cu.is_virtual = false → cu.key ≠ cc.key →
      open_position pa cu cc p oc = .error .RequireKeysEqViolated) ∧
    ((pa && cu.allow_close_position) = true → cp.price = 0 →
      close_position pa cu cc pos cp ccmp = .error .InvalidArgument) := by
  refine ⟨?_, ?_, ?_, ?_⟩
  · intro hz
    refine open_position_checks_error pa cu cc p oc _ ?_
    unfold open_checks
    rw [if_neg (by simp [hperm])]
    rw [if_pos (by rcases hz with h | h | h | h <;> simp [h])]
  · intro hpz hcz hsz hside hsv
    constructor
    · intro hkey
      refine open_position_checks_error pa cu cc p oc _ ?_
      unfold open_checks
      rw [if_neg (by simp [hperm])]
      rw [if_neg (by simp [hpz, hcz, hsz, hside])]
      rw [if_pos (by rcases hsv with h | h <;> simp [h])]
      rw [if_pos hkey]
    · intro hkey hcc
      refine open_position_checks_error pa cu cc p oc _ ?_
      unfold open_checks
      rw [if_neg (by simp [hperm])]
      rw [if_neg (by simp [hpz, hcz, hsz, hside])]
      rw [if_pos (by rcases hsv with h | h <;> simp [h])]
      rw [if_neg hkey]
      rw [if_pos (by simp [hcc])]
  · intro hpz hcz hsz hside hvirt hkey
    refine open_position_checks_error pa cu cc p oc _ ?_
    unfold open_checks
    rw [if_neg (by simp [hperm])]
    rw [if_neg (by simp [hpz, hcz, hsz, hside])]
    rw [if_neg (by simp [hside, hvirt])]
    rw [if_neg hkey]
  · intro hperm2 hp
    unfold close_position
    rw [if_neg (by simp [hperm2]), if_pos hp]

/-- Claim C6, witness: each error of the amended claim exhibited on the
sample custody — zero price gives InvalidArgument, a Short against the
same account gives RequireKeysNeqViolated, a Short against a distinct
non-stable account gives InvalidCollateralCustody, a Long against a
distinct account gives RequireKeysEqViolated, and a zero-price close
gives InvalidArgument. -/
theorem C6_validation_errors_witness :
    open_position true sampleCustody sampleCustody
      { sampleOpenParams with price := 0 } sampleOpenComputed =
      .error .InvalidArgument ∧
    open_position true sampleCustody sampleCustody
      { sampleOpenParams with side := .Short } sampleOpenComputed =
      .error .RequireKeysNeqViolated ∧
    open_position true sampleCustody { sampleCustody with key := 2 }
      { sampleOpenParams with side := .Short } sampleOpenComputed =
      .error .InvalidCollateralCustody ∧
    open_position true sampleCustody { sampleCustody with key := 2 }
      sampleOpenParams sampleOpenComputed = .error .RequireKeysEqViolated ∧
    close_position true sampleCustody sampleCustody samplePosition
      { price := 0 } sampleCloseComputed = .error .InvalidArgument := by
  refine ⟨?_, ?_, ?_, ?_, ?_⟩
  · exact (C6_validation_errors true sampleCustody sampleCustody
      { sampleOpenParams with price := 0 } sampleOpenComputed samplePosition
      sampleCloseParams sampleCloseComputed (by decide)).1 (Or.inl rfl)
  · exact ((C6_validation_errors true sampleCustody sampleCustody
      { sampleOpenParams with side := .Short } sampleOpenComputed samplePosition
      sampleCloseParams sampleCloseComputed (by decide)).2.1
      (by decide) (by decide) (by decide) (by decide) (Or.inl rfl)).1 rfl
  · exact ((C6_validation_errors true sampleCustody
      { sampleCustody with key := 2 }
      { sampleOpenParams with side := .Short } sampleOpenComputed samplePosition
      sampleCloseParams sampleCloseComputed (by decide)).2.1
      (by decide) (by decide) (by decide) (by decide) (Or.inl rfl)).2
      (by decide) (by decide)
  · exact (C6_validation_errors true sampleCustody
      { sampleCustody with key := 2 } sampleOpenParams sampleOpenComputed
      samplePosition sampleCloseParams sampleCloseComputed (by decide)).2.2.1
      (by decide) (by decide) (by decide) rfl rfl (by decide)
  · exact (C6_validation_errors true sampleCustody sampleCustody
      sampleOpenParams sampleOpenComputed samplePosition { price := 0 }
      sampleCloseComputed (by decide)).2.2.2 (by decide) rfl

/-- An operation of a trade sequence against one collateral custody:
either an `open_position` creating a new live position collateralized by
that custody, or a `close_position` destroying the live position at an
index.  The position custody account and the oracle/pool computation
results accompany each operation, as in the handlers. -/
inductive TradeOp where
  | openPos (custody : Custody) (params : OpenPositionParams) (c : OpenComputed)
  | closePos (idx : Nat) (custody : Custody) (params : ClosePositionParams)
      (c : CloseComputed)

/-- The shared state a trade sequence acts on: the collateral custody's
persistent record and the list of live positions collateralized by it. -/
structure World where
  collateral_custody : Custody
  positions : List Position

/-- Sum of `locked_amount` over all live positions of a world. -/
def World.sum_locked (w : World) : Nat :=
  (w.positions.map (·.locked_amount)).sum

/-- One step of a trade sequence: an open runs `open_position` against
the world's collateral custody and appends the created position; a close
runs `close_position` on the live position at `idx` and removes it.
Closing a non-live index has no position account to operate on and is
rejected (a modelling artifact standing for the absent account). -/
def step (pa_open pa_close : Bool) (w : World) (op : TradeOp) :
    Except Err World :=
  match op with
  | .openPos cu params c =>
    bindE (open_position pa_open cu w.collateral_custody params c) fun r =>
      .ok { collateral_custody := r.collateral_custody,
            positions := w.positions ++ [r.position] }
  | .closePos idx cu params c =>
    match w.positions.get? idx with
    | none => .error .InvalidArgument
    | some pos =>
      bindE (close_position pa_close cu w.collateral_custody pos params c) fun r =>
        .ok { collateral_custody := r.collateral_custody,
              positions := w.positions.eraseIdx idx }

/-- Run a whole trade sequence, aborting at the first failing step. -/
def run_ops (pa_open pa_close : Bool) (w : World) :
    List TradeOp → Except Err World
  | [] => .ok w
  | op :: ops =>
    bindE (step pa_open pa_close w op) fun w2 => run_ops pa_open pa_close w2 ops

/-- Removing the element at a live index removes exactly its contribution
from the locked sum. -/
theorem sum_locked_eraseIdx (l : List Position) (i : Nat) (pos : Position)
    (h : l.get? i = some pos) :
    ((l.eraseIdx i).map (·.locked_amount)).sum + pos.locked_amount =
      (l.map (·.locked_amount)).sum := by
  induction l generalizing i with
  | nil => simp at h
  | cons a t ih =>
    cases i with
    | zero =>
      rw [List.get?_cons_zero] at h
      cases h
      simp [List.eraseIdx]
      omega
    | succ n =>
      rw [List.get?_cons_succ] at h
      have := ih n h
      simp [List.eraseIdx]
      omega

/-- A successful open step adds exactly the new position's
`locked_amount` to both the locked sum and the custody's `locked`
field; a successful close step removes exactly the closed position's
`locked_amount` from both.  Hence each step preserves the conservation
invariant. -/
theorem step_preserves_conservation (pa_open pa_close : Bool) (w : World)
    (op : TradeOp) (w2 : World)
    (hinv : w.sum_locked = w.collateral_custody.locked)
    (h : step pa_open pa_close w op = .ok w2) :
    w2.sum_locked = w2.collateral_custody.locked := by
  cases op with
  | openPos cu params c =>
    simp only [step] at h
    rcases hres : open_position pa_open cu w.collateral_custody params c with e | r
    · rw [hres] at h
      simp only [bindE_error] at h
      cases h
    rw [hres] at h
    simp only [bindE_ok, Except.ok.injEq] at h
    subst h
    obtain ⟨-, -, -, -, hpos, -, -, cc2, hlock, hstats⟩ :=
      open_position_ok_inversion pa_open cu w.collateral_custody params c r hres
    obtain ⟨-, rfl⟩ := lock_funds_ok _ _ _ hlock
    obtain ⟨hlocked, -⟩ := open_update_stats_ok_inversion _ _ _ _ _ _ _ hstats
    dsimp only at hlocked
    have hpla : r.position.locked_amount = c.locked_amount := by
      rw [hpos]
      rfl
    simp only [World.sum_locked, List.map_append, List.sum_append,
      List.map_cons, List.map_nil, List.sum_cons, List.sum_nil]
    rw [hpla, hlocked]
    simp only [World.sum_locked] at hinv
    omega
  | closePos idx cu params c =>
    simp only [step] at h
    rcases hget : w.positions.get? idx with _ | pos
    · rw [hget] at h
      cases h
    rw [hget] at h
    dsimp only at h
    rcases hres : close_position pa_close cu w.collateral_custody pos params c with e | r
    · rw [hres] at h
      simp only [bindE_error] at h
      cases h
    rw [hres] at h
    simp only [bindE_ok, Except.ok.injEq] at h
    subst h
    obtain ⟨-, -, -, -, pf, cc2, -, hun, -, -, hstats⟩ :=
      close_position_ok_inversion pa_close cu w.collateral_custody pos params c r hres
    obtain ⟨hle, rfl⟩ := unlock_funds_ok _ _ _ hun
    obtain ⟨hlocked, -⟩ := close_update_stats_ok_inversion _ _ _ _ _ _ _ hstats
    dsimp only at hlocked hle
    have herase := sum_locked_eraseIdx w.positions idx pos hget
    simp only [World.sum_locked] at hinv ⊢
    rw [hlocked]
    omega

/-- Claim C1: for every sequence of open and close operations on a
collateral custody, starting from any state where the sum of
`locked_amount` over the live positions equals the custody's persisted
`locked` field, every successfully reached state satisfies the same
equation — `open_position` locks exactly `position.locked_amount` via
`lock_funds` after the risk checks, and `close_position` unlocks exactly
the same `position.locked_amount` via `unlock_funds`. -/
theorem C1_lock_unlock_conservation (pa_open pa_close : Bool) (w : World)
    (ops : List TradeOp) (w2 : World)
    (hinv : w.sum_locked = w.collateral_custody.locked)
    (h : run_ops pa_open pa_close w ops = .ok w2) :
    w2.sum_locked = w2.collateral_custody.locked := by
  induction ops generalizing w with
  | nil =>
    unfold run_ops at h
    cases h
    exact hinv
  | cons op ops ih =>
    unfold run_ops at h
    rcases hstep : step pa_open pa_close w op with e | w1
    · rw [hstep] at h
      simp only [bindE_error] at h
      cases h
    rw [hstep] at h
    simp only [bindE_ok] at h
    exact ih w1 (step_preserves_conservation pa_open pa_close w op w1 hinv hstep) h

/-- The starting world for the conservation witness: the sample custody
with nothing locked and no live position. -/
def sampleWorld : World :=
  { collateral_custody := { sampleCustody with locked := 0 }, positions := [] }

/-- The sample trade sequence: open a Long (locking 50), then close it
(unlocking 50). -/
def sampleOps : List TradeOp :=
  [ .openPos { sampleCustody with locked := 0 } sampleOpenParams sampleOpenComputed,
    .closePos 0 { sampleCustody with locked := 0 } sampleCloseParams
      sampleCloseComputed ]

/-- Claim C1, witness: the sample open-then-close sequence succeeds and
the reached state satisfies the conservation equation. -/
theorem C1_lock_unlock_conservation_witness :
    (run_ops true true sampleWorld sampleOps).isOk = true ∧
    (run_ops true true sampleWorld sampleOps).map
      (fun w => decide (w.sum_locked = w.collateral_custody.locked)) =
      .ok true := by
  refine ⟨by decide, ?_⟩
  rcases hres : run_ops true true sampleWorld sampleOps with e | w2
  · have hok : (run_ops true true sampleWorld sampleOps).isOk = true := by decide
    rw [hres] at hok
    simp [Except.isOk, Except.toBool] at hok
  · have h := C1_lock_unlock_conservation true true sampleWorld sampleOps w2
      rfl hres
    simp only [Except.map, decide_eq_true h]
